import Mathlib

/-!
# Shared-surface handle cache and TV source-listener registry

A shallow embedding of

* `gfx/layers/ipc/SharedSurfacesChild.h` (`ImageKeyData`, `SharedUserData`,
  `SharedSurfacesAnimation`),
* `dom/tv/gonk/TVGonkService.cpp` (the source-listener registry),
* `dom/tv/gonk/TVHelpers.cpp` and `TVHelpers.h` (`Convert`, `TVStatus`),
* `netwerk/dns/mdns/libmdns/AvahiOperator.cpp` (`AvahiInternal`,
  `AvahiOperator`, `BrowseOperator`),

followed by the properties proved about them.  Pointers and opaque
identifiers (`WebRenderLayerManager*`, `nsITVSourceListener*`,
`wr::ExternalImageId`, `wr::ImageKey`, surface identity) are natural numbers
compared by equality; `Maybe<T>` is `Option T`; `nsTArray<T>` is `List T`.

The header defines the constructors, `Id`, `SetId`, `IsShared`, `MarkShared`
and `TakeDirtyRect` inline; these are translated from it.  The coordinator
entry points (`Share`, `Unshare`, `GetExternalId`), `UpdateKey`,
`MergeDirtyRect` and `SetCurrentFrame` are declared there without a body; each
of them is modelled from the specification and says so in its comment.
-/

set_option autoImplicit false

/-! ## Part 1: definitions -/

/-- An `nsresult` is a 32-bit status word. -/
abbrev nsresult := Nat

/-- The success code `NS_OK`. -/
def NS_OK : nsresult := 0

/-- Equality of results is decidable when it is on errors and on values. -/
instance instDecidableEqExcept {ε α : Type} [DecidableEq ε] [DecidableEq α] :
    DecidableEq (Except ε α)
  | Except.ok a, Except.ok b =>
    if h : a = b then isTrue (by rw [h]) else isFalse (fun h2 => h (Except.ok.inj h2))
  | Except.error a, Except.error b =>
    if h : a = b then isTrue (by rw [h]) else isFalse (fun h2 => h (Except.error.inj h2))
  | Except.ok _, Except.error _ => isFalse (fun h => Except.noConfusion h)
  | Except.error _, Except.ok _ => isFalse (fun h => Except.noConfusion h)

namespace gfx

/-- The rectangle type `gfx::IntRect`: origin and size in integer pixels. -/
structure IntRect where
  x : Int
  y : Int
  width : Int
  height : Int
deriving DecidableEq, Repr

/-- The point `(px, py)` lies inside the rectangle (half-open on the right and
bottom edges). -/
def IntRect.Contains (r : IntRect) (px py : Int) : Prop :=
  r.x ≤ px ∧ px < r.x + r.width ∧ r.y ≤ py ∧ py < r.y + r.height

instance (r : IntRect) (px py : Int) : Decidable (r.Contains px py) := by
  unfold IntRect.Contains
  infer_instance

/-- Modelled from the spec: the body of the rectangle union is not part of the
sources at hand.  The spec keeps "only a single bounding rectangle" that "must
cover both rectangles": the bounding box of the two rectangles, computed on
their edges over the mathematical integers. -/
def IntRect.Union (a b : IntRect) : IntRect :=
  { x := min a.x b.x
    y := min a.y b.y
    width := max (a.x + a.width) (b.x + b.width) - min a.x b.x
    height := max (a.y + a.height) (b.y + b.height) - min a.y b.y }

end gfx

/-- Modelled from the spec: move construction of `mozilla::Maybe` (declared in
`mozilla/Maybe.h`, which is not among the sources at hand).  The value is
transferred to the result and the source is reset to `Nothing`, which is what
makes draining "destructive" and "resets it to absent".  Returns the
constructed value and the moved-from source. -/
def Maybe.move {α : Type} (aOther : Option α) : Option α × Option α :=
  match aOther with
  | some v => (some v, none)
  | none => (none, none)

/-- The method `nsTArray::Clear`: removes every element. -/
def nsTArray.Clear {α : Type} (_self : List α) : List α := []

namespace SharedSurfacesChild

/-- The record `SharedSurfacesChild::ImageKeyData`: one per (surface, consumer). -/
structure ImageKeyData where
  mManager : Nat
  mDirtyRect : Option gfx.IntRect
  mImageKey : Nat
deriving DecidableEq, Repr

namespace ImageKeyData

/-- The constructor `ImageKeyData(aManager, aImageKey)`; the `Maybe` member
starts out as `Nothing`. -/
def new (aManager : Nat) (aImageKey : Nat) : ImageKeyData :=
  { mManager := aManager, mDirtyRect := none, mImageKey := aImageKey }

/-- The inline method `TakeDirtyRect`: `return std::move(mDirtyRect);`.
Returns the drained rectangle and the record afterwards. -/
def TakeDirtyRect (self : ImageKeyData) : Option gfx.IntRect × ImageKeyData :=
  let r := Maybe.move self.mDirtyRect
  (r.1, { self with mDirtyRect := r.2 })

/-- Modelled from the spec: `MergeDirtyRect` is only declared in the header.
The spec merges the reported rectangle into the pending one, the merged region
covering both; an absent pending rectangle becomes the reported one. -/
def MergeDirtyRect (self : ImageKeyData) (aDirtyRect : Option gfx.IntRect) : ImageKeyData :=
  match self.mDirtyRect, aDirtyRect with
  | some cur, some r => { self with mDirtyRect := some (cur.Union r) }
  | some _, none => self
  | none, r => { self with mDirtyRect := r }

end ImageKeyData

/-- The class `SharedSurfacesChild::SharedUserData`.  `mId` is `none` as long
as no id has been stored: the default constructor leaves the member without a
supplied value. -/
structure SharedUserData where
  mKeys : List ImageKeyData
  mId : Option Nat
  mShared : Bool
deriving DecidableEq, Repr

namespace SharedUserData

/-- The default constructor `SharedUserData() : mShared(false)`. -/
def new : SharedUserData :=
  { mKeys := [], mId := none, mShared := false }

/-- The constructor `SharedUserData(aId) : mId(aId), mShared(false)`. -/
def newWithId (aId : Nat) : SharedUserData :=
  { mKeys := [], mId := some aId, mShared := false }

/-- The accessor `Id()`. -/
def Id (self : SharedUserData) : Option Nat := self.mId

/-- The method `SetId`: `mId = aId; mKeys.Clear(); mShared = false;`. -/
def SetId (self : SharedUserData) (aId : Nat) : SharedUserData :=
  { self with mId := some aId, mKeys := nsTArray.Clear self.mKeys, mShared := false }

/-- The accessor `IsShared()`. -/
def IsShared (self : SharedUserData) : Bool := self.mShared

/-- The condition of `MOZ_ASSERT(!mShared)` at the head of `MarkShared`. -/
def MarkSharedAssertion (self : SharedUserData) : Bool := !self.mShared

/-- The method `MarkShared`: `MOZ_ASSERT(!mShared); mShared = true;`. -/
def MarkShared (self : SharedUserData) : SharedUserData :=
  { self with mShared := true }

/-- A call of one of the two mutators of the public interface. -/
inductive Call where
  | SetId (aId : Nat)
  | MarkShared
deriving DecidableEq, Repr

/-- Performs one call on an entry. -/
def Call.apply (c : Call) (self : SharedUserData) : SharedUserData :=
  match c with
  | Call.SetId aId => self.SetId aId
  | Call.MarkShared => self.MarkShared

/-- Performs a sequence of calls, first call first. -/
def applyCalls (self : SharedUserData) (cs : List Call) : SharedUserData :=
  cs.foldl (fun d c => c.apply d) self

/-- Every `MarkShared` of the sequence is entered with its assertion true. -/
def assertionsHold (self : SharedUserData) : List Call → Bool
  | [] => true
  | Call.SetId aId :: cs => assertionsHold (self.SetId aId) cs
  | Call.MarkShared :: cs => self.MarkSharedAssertion && assertionsHold self.MarkShared cs

end SharedUserData

/-- An instruction accepted by the resource update sink
(`wr::IpcResourceUpdateQueue`): add image, update image, delete image. -/
inductive ResourceUpdate where
  | AddImage (key : Nat) (handle : Option Nat)
  | UpdateImage (key : Nat) (rect : gfx.IntRect)
  | DeleteImage (key : Nat)
deriving DecidableEq, Repr

/-- The append-only queue of instructions. -/
abbrev IpcResourceUpdateQueue := List ResourceUpdate

/-- The instruction is an add image. -/
def ResourceUpdate.isAdd : ResourceUpdate → Bool
  | ResourceUpdate.AddImage _ _ => true
  | _ => false

/-- The instruction is an update image. -/
def ResourceUpdate.isUpdate : ResourceUpdate → Bool
  | ResourceUpdate.UpdateImage _ _ => true
  | _ => false

/-- The instruction is a delete image. -/
def ResourceUpdate.isDelete : ResourceUpdate → Bool
  | ResourceUpdate.DeleteImage _ => true
  | _ => false

namespace SharedUserData

/-- Modelled from the spec: the hit branch of `UpdateKey` (only declared in the
header).  "On hit it merges the new dirty rect into the pending one and
enqueues an update image command only if a rect is pending", draining it. -/
def UpdateKey.onHit (entry : ImageKeyData) (aResources : IpcResourceUpdateQueue)
    (aDirtyRect : Option gfx.IntRect) : ImageKeyData × IpcResourceUpdateQueue :=
  let taken := (entry.MergeDirtyRect aDirtyRect).TakeDirtyRect
  match taken.1 with
  | some rect => (taken.2, aResources ++ [ResourceUpdate.UpdateImage entry.mImageKey rect])
  | none => (taken.2, aResources)

/-- Modelled from the spec: the lookup of `UpdateKey` for the record of the
consumer `aManager`, first match wins.  Returns the key of the record, the
records afterwards and the queue afterwards, or `none` on a miss. -/
def UpdateKey.scan (aManager : Nat) (aDirtyRect : Option gfx.IntRect) :
    List ImageKeyData → IpcResourceUpdateQueue →
      Option (Nat × List ImageKeyData × IpcResourceUpdateQueue)
  | [], _ => none
  | entry :: rest, aResources =>
    if entry.mManager = aManager then
      let r := UpdateKey.onHit entry aResources aDirtyRect
      some (entry.mImageKey, r.1 :: rest, r.2)
    else
      match UpdateKey.scan aManager aDirtyRect rest aResources with
      | none => none
      | some (key, rest1, q) => some (key, entry :: rest1, q)

/-- Modelled from the spec: `UpdateKey` is only declared in the header.
"On miss: allocate a consumer-local key, append an add image(handle, key)
instruction, create the record with no pending dirty rect.  On hit: return the
existing key; if the record carries a pending dirty rect, append an update
image(key, rect) instruction draining it; if no pending rect exists, append
nothing."  `aNextKey` is the key the consumer hands out when asked for one. -/
def UpdateKey (self : SharedUserData) (aManager : Nat) (aNextKey : Nat)
    (aResources : IpcResourceUpdateQueue) (aDirtyRect : Option gfx.IntRect) :
    Nat × SharedUserData × IpcResourceUpdateQueue :=
  match UpdateKey.scan aManager aDirtyRect self.mKeys aResources with
  | some (key, keys, q) => (key, { self with mKeys := keys }, q)
  | none =>
    (aNextKey,
      { self with mKeys := self.mKeys ++ [ImageKeyData.new aManager aNextKey] },
      aResources ++ [ResourceUpdate.AddImage aNextKey self.Id])

/-- The key recorded for the consumer `aManager`, first match wins. -/
def keyFor (self : SharedUserData) (aManager : Nat) : Option Nat :=
  (self.mKeys.find? (fun e => decide (e.mManager = aManager))).map (fun e => e.mImageKey)

end SharedUserData

/-- The error taxonomy of the coordinator. -/
inductive Error where
  | AllocationFailed
  | TransportRejected
  | NotSupported
  | PreconditionViolated
deriving DecidableEq, Repr

/-- Calls made on the external collaborators and on the cache entries, in the
order in which they happen. -/
inductive Event where
  | MapSurface (surface : Nat) (handle : Nat)
  | UnmapSurface (handle : Nat)
  | MarkShared (surface : Nat) (assertion : Bool)
deriving DecidableEq, Repr

/-- The event is a call of the transport mapper `MapSurface`. -/
def Event.isMap : Event → Bool
  | Event.MapSurface _ _ => true
  | _ => false

/-- The event is a call of `MarkShared`. -/
def Event.isMarkShared : Event → Bool
  | Event.MarkShared _ _ => true
  | _ => false

/-- The side table from surface identity to cache entry. -/
abbrev Cache := List (Nat × SharedUserData)

/-- The entry attached to a surface, if any. -/
def Cache.find : Cache → Nat → Option SharedUserData
  | [], _ => none
  | (s, e) :: rest, surface => if s = surface then some e else Cache.find rest surface

/-- Attaches an entry to a surface, replacing the one it has. -/
def Cache.set : Cache → Nat → SharedUserData → Cache
  | [], surface, entry => [(surface, entry)]
  | (s, e) :: rest, surface, entry =>
    if s = surface then (s, entry) :: rest else (s, e) :: Cache.set rest surface entry

/-- Removes the entry of every surface whose entry carries the handle. -/
def Cache.removeHandle (cache : Cache) (handle : Nat) : Cache :=
  cache.filter (fun p => decide ((cache.find p.1).bind SharedUserData.Id ≠ some handle))

/-- Modelled from the spec: the state of the sharing coordinator, whose
implementation file is not among the sources at hand: the identity allocator
(a monotone counter), the side table of cache entries, the handles marked
eligible for reuse, the remove-image instructions handed to each consumer, and
the calls made so far. -/
structure Coordinator where
  nextHandle : Nat
  cache : Cache
  reusable : List Nat
  discards : List (Nat × ResourceUpdate)
  events : List Event
deriving DecidableEq, Repr

namespace Coordinator

/-- Modelled from the spec: `Allocate` of the identity allocator.  Handles are
64-bit values "allocated monotonically"; the handle space is exhausted once
the counter leaves it. -/
def Allocate (c : Coordinator) : Option (Nat × Coordinator) :=
  if c.nextHandle < 2 ^ 64 then
    some (c.nextHandle, { c with nextHandle := c.nextHandle + 1 })
  else
    none

/-- Modelled from the spec: `ShareForExternalId`, the overload
`Share(aSurface, aId)` of the header.  "Looks up or creates the surface's cache
entry.  If shared == false: 1. allocate a handle if absent, 2. invoke the
external transport collaborator, 3. on success set shared = true; on failure,
leave the entry with handle present/absent as it was and return an error.
Returns the (possibly pre-existing) handle on success."  `transportOk` is the
answer of the transport mapper, consulted only if it is invoked. -/
def ShareForExternalId (c : Coordinator) (surface : Nat) (transportOk : Bool) :
    Except Error Nat × Coordinator :=
  let entry := (c.cache.find surface).getD SharedUserData.new
  if entry.IsShared then
    match entry.Id with
    | some handle => (Except.ok handle, c)
    | none => (Except.error Error.PreconditionViolated, c)
  else
    let allocated : Option (Nat × Coordinator) :=
      match entry.Id with
      | some handle => some (handle, c)
      | none => c.Allocate
    match allocated with
    | none => (Except.error Error.AllocationFailed, { c with cache := c.cache.set surface entry })
    | some (handle, c1) =>
      let c2 := { c1 with events := c1.events ++ [Event.MapSurface surface handle] }
      if transportOk then
        let withId := { entry with mId := some handle }
        (Except.ok handle,
          { c2 with
            cache := c2.cache.set surface withId.MarkShared
            events := c2.events ++ [Event.MarkShared surface withId.MarkSharedAssertion] })
      else
        (Except.error Error.TransportRejected, { c2 with cache := c2.cache.set surface entry })

/-- Modelled from the spec: `ShareForImageKey`, the overload
`Share(aSurface, aManager, aResources, aKey)` of the header.  "Requires a
successful ShareForExternalId first (propagates its error)", then runs
`UpdateKey` for the consumer on the surface's entry, with no dirty rect. -/
def ShareForImageKey (c : Coordinator) (surface : Nat) (aManager : Nat)
    (aResources : IpcResourceUpdateQueue) (transportOk : Bool) (aNextKey : Nat) :
    Except Error Nat × Coordinator × IpcResourceUpdateQueue :=
  match ShareForExternalId c surface transportOk with
  | (Except.error e, c1) => (Except.error e, c1, aResources)
  | (Except.ok _, c1) =>
    match c1.cache.find surface with
    | none => (Except.error Error.PreconditionViolated, c1, aResources)
    | some entry =>
      let r := entry.UpdateKey aManager aNextKey aResources none
      (Except.ok r.1, { c1 with cache := c1.cache.set surface r.2.1 }, r.2.2)

/-- Modelled from the spec: `GetExternalId`.  "Pure lookup, no side effects;
returns absent if the surface has no cache entry or is not yet shared." -/
def GetExternalId (c : Coordinator) (surface : Nat) : Option Nat :=
  match c.cache.find surface with
  | some entry => if entry.IsShared then entry.Id else none
  | none => none

/-- Modelled from the spec: `NotifyDirty`.  "For every ConsumerKeyRecord of the
surface, merge dirtyRect into pendingDirtyRect.  Does not itself enqueue any
instruction." -/
def NotifyDirty (c : Coordinator) (surface : Nat) (aDirtyRect : gfx.IntRect) : Coordinator :=
  match c.cache.find surface with
  | none => c
  | some entry =>
    { c with
      cache := c.cache.set surface
        { entry with mKeys := entry.mKeys.map (fun e => e.MergeDirtyRect (some aDirtyRect)) } }

/-- Modelled from the spec: `Unshare(aId, aReleaseId, aKeys)` is only declared
in the header.  "For every consumer record, enqueue a remove image(key)
instruction; if releaseId is true, mark the handle eligible for future reuse;
remove the cache entry."  Each instruction goes to the sink of the record's
consumer. -/
def Unshare (c : Coordinator) (aId : Nat) (aReleaseId : Bool) (aKeys : List ImageKeyData) :
    Coordinator :=
  { c with
    discards := c.discards ++ aKeys.map (fun e => (e.mManager, ResourceUpdate.DeleteImage e.mImageKey))
    reusable := if aReleaseId then c.reusable ++ [aId] else c.reusable
    cache := c.cache.removeHandle aId }

end Coordinator

end SharedSurfacesChild

/-- The class `SharedSurfacesAnimation`: it derives privately from
`SharedUserData` and declares no member of its own. -/
structure SharedSurfacesAnimation extends SharedSurfacesChild.SharedUserData
deriving DecidableEq, Repr

namespace SharedSurfacesAnimation

open SharedSurfacesChild

/-- The constructor `SharedSurfacesAnimation() { }`, on the default constructor
of the base class. -/
def new : SharedSurfacesAnimation :=
  { toSharedUserData := SharedUserData.new }

/-- Modelled from the spec: `SetCurrentFrame` is only declared in the header.
The frame is shared first (its error is propagated) and the dirty rect is
recorded on the consumer records of the owner.  "Unbound → Bound: establishes
initial handle.  Bound → Bound: if the previous frame's surface is the same
object and has the same handle, simply calls NotifyDirty; if the surface
differs, unshares the previous handle (without releasing the shared
consumer-local key — only the external handle is retired) and re-targets to
the new handle."  Re-targeting assigns the handle member, which the derived
class reaches as a protected member of its base; it does not go through
`SetId`, which would empty the records that the spec keeps. -/
def SetCurrentFrame (self : SharedSurfacesAnimation) (c : Coordinator) (aSurface : Nat)
    (aDirtyRect : gfx.IntRect) (transportOk : Bool) :
    Except Error Unit × SharedSurfacesAnimation × Coordinator :=
  match c.ShareForExternalId aSurface transportOk with
  | (Except.error e, c1) => (Except.error e, self, c1)
  | (Except.ok handle, c1) =>
    let notified := self.mKeys.map (fun e => e.MergeDirtyRect (some aDirtyRect))
    match self.Id with
    | none => (Except.ok (), { self with mId := some handle, mKeys := notified }, c1)
    | some previous =>
      if previous = handle then
        (Except.ok (), { self with mKeys := notified }, c1)
      else
        let c2 := { c1 with events := c1.events ++ [Event.UnmapSurface previous] }
        (Except.ok (), { self with mId := some handle, mKeys := notified },
          c2.Unshare previous false [])

/-- A sequence of frame changes, first change first: each gives the surface of
the frame, the dirty rect and the answer of the transport mapper. -/
def setFrames (self : SharedSurfacesAnimation) (c : Coordinator) :
    List (Nat × gfx.IntRect × Bool) → SharedSurfacesAnimation × Coordinator
  | [] => (self, c)
  | (aSurface, aDirtyRect, transportOk) :: rest =>
    let r := self.SetCurrentFrame c aSurface aDirtyRect transportOk
    setFrames r.2.1 r.2.2 rest

end SharedSurfacesAnimation

namespace TVGonkService

/-- A registered tuple `TVSourceListenerTuple`: tuner id, source type and the
listener pointer. -/
abbrev TVSourceListenerTuple := String × String × Nat

/-- The member `mSourceListenerTuples`. -/
abbrev Registry := List TVSourceListenerTuple

/-- The method `RegisterSourceListener`: appends the tuple, returns `NS_OK`. -/
def RegisterSourceListener (mSourceListenerTuples : Registry)
    (aTunerId aSourceType : String) (aListener : Nat) : nsresult × Registry :=
  (NS_OK, mSourceListenerTuples ++ [(aTunerId, aSourceType, aListener)])

/-- The loop of `UnregisterSourceListener`, entered at index `i` with `fuel`
iterations left: the first tuple equal in all three components is removed
with `RemoveElementAt(i)` and the loop is left. -/
def UnregisterSourceListener.loop (aTunerId aSourceType : String) (aListener : Nat)
    (mSourceListenerTuples : Registry) : (fuel : Nat) → (i : Nat) → Registry
  | 0, _ => mSourceListenerTuples
  | fuel + 1, i =>
    match mSourceListenerTuples[i]? with
    | none => mSourceListenerTuples
    | some tuple =>
      if aTunerId = tuple.1 ∧ aSourceType = tuple.2.1 ∧ aListener = tuple.2.2 then
        mSourceListenerTuples.eraseIdx i
      else
        UnregisterSourceListener.loop aTunerId aSourceType aListener mSourceListenerTuples fuel (i + 1)

/-- The method `UnregisterSourceListener`: runs the loop from index 0 over
`Length()` iterations and returns `NS_OK`. -/
def UnregisterSourceListener (mSourceListenerTuples : Registry)
    (aTunerId aSourceType : String) (aListener : Nat) : nsresult × Registry :=
  (NS_OK, UnregisterSourceListener.loop aTunerId aSourceType aListener mSourceListenerTuples
    mSourceListenerTuples.length 0)

/-- The loop of `GetSourceListeners`, entered at index `i` with `fuel`
iterations left: the listener of the first tuple matching tuner id and source
type is appended and the loop is left. -/
def GetSourceListeners.loop (aTunerId aSourceType : String)
    (mSourceListenerTuples : Registry) : (fuel : Nat) → (i : Nat) → List Nat → List Nat
  | 0, _, aListeners => aListeners
  | fuel + 1, i, aListeners =>
    match mSourceListenerTuples[i]? with
    | none => aListeners
    | some tuple =>
      if aTunerId = tuple.1 ∧ aSourceType = tuple.2.1 then
        aListeners ++ [tuple.2.2]
      else
        GetSourceListeners.loop aTunerId aSourceType mSourceListenerTuples fuel (i + 1) aListeners

/-- The method `GetSourceListeners`: `aListeners.Clear()`, then the loop from
index 0.  The method is `const`; the registry is returned next to the output
list so that its state after the call can be spoken of. -/
def GetSourceListeners (mSourceListenerTuples : Registry)
    (aTunerId aSourceType : String) (aListeners : List Nat) : Registry × List Nat :=
  let cleared : List Nat := nsTArray.Clear aListeners
  (mSourceListenerTuples,
    GetSourceListeners.loop aTunerId aSourceType mSourceListenerTuples
      mSourceListenerTuples.length 0 cleared)

end TVGonkService

/-- The part of `nsError.h` that the code below uses and that is not among
the sources at hand: the test `NS_SUCCEEDED` and the error codes.  It is a
parameter of the functions that use it. -/
structure nsError where
  NS_SUCCEEDED : nsresult → Bool
  NS_ERROR_FAILURE : nsresult
  NS_ERROR_INVALID_ARG : nsresult
  NS_ERROR_NOT_AVAILABLE : nsresult
  NS_ERROR_NOT_IMPLEMENTED : nsresult

/-- The test `NS_FAILED`, the negation of `NS_SUCCEEDED`. -/
def nsError.NS_FAILED (E : nsError) (rv : nsresult) : Bool := !E.NS_SUCCEEDED rv

/-- One instance of the parameter: a status word is a success when its bit 31
is clear, and the four error codes have that bit set and differ from each
other. -/
def nsError.xpcom : nsError :=
  { NS_SUCCEEDED := fun rv => decide (rv / 2 ^ 31 % 2 = 0)
    NS_ERROR_FAILURE := 0x80004005
    NS_ERROR_INVALID_ARG := 0x80070057
    NS_ERROR_NOT_AVAILABLE := 0x80040111
    NS_ERROR_NOT_IMPLEMENTED := 0x80004001 }

namespace TVHelpers

/-- The enumeration `TVStatus` of `TVHelpers.h`. -/
inductive TVStatus where
  | STATUS_OK
  | STATUS_FAILURE
  | STATUS_INVALID_ARG
  | STATUS_NO_SIGNAL
  | STATUS_NOT_SUPPORTED
deriving DecidableEq, Repr

/-- The `uint8_t` value of an enumerator. -/
def TVStatus.value : TVStatus → Nat
  | TVStatus.STATUS_OK => 0x00
  | TVStatus.STATUS_FAILURE => 0x01
  | TVStatus.STATUS_INVALID_ARG => 0x02
  | TVStatus.STATUS_NO_SIGNAL => 0x03
  | TVStatus.STATUS_NOT_SUPPORTED => 0x04

/-- The function `Convert(nsresult aIn, TVStatus& aOut)` of `TVHelpers.cpp`.
Returns the result code and the value stored in `aOut`. -/
def Convert (E : nsError) (aIn : nsresult) : nsresult × TVStatus :=
  let aOut : TVStatus :=
    if E.NS_SUCCEEDED aIn then
      TVStatus.STATUS_OK
    else if aIn = E.NS_ERROR_INVALID_ARG then
      TVStatus.STATUS_INVALID_ARG
    else if aIn = E.NS_ERROR_NOT_AVAILABLE then
      TVStatus.STATUS_NO_SIGNAL
    else if aIn = E.NS_ERROR_NOT_IMPLEMENTED then
      TVStatus.STATUS_NOT_SUPPORTED
    else
      TVStatus.STATUS_FAILURE
  (NS_OK, aOut)

end TVHelpers

/-- The class `AvahiOperator::AvahiInternal`: whether each of the three
resources of the Avahi library is held. -/
structure AvahiInternal where
  mAvahiPoll : Bool
  mAvahiClient : Bool
  mAvahiBrowser : Bool
deriving DecidableEq, Repr

namespace AvahiInternal

/-- The constructor: the three pointers are null. -/
def new : AvahiInternal :=
  { mAvahiPoll := false, mAvahiClient := false, mAvahiBrowser := false }

/-- The method `Close`: resets browser and client, stops and resets the poll,
returns `NS_OK`. -/
def Close (self : AvahiInternal) : nsresult × AvahiInternal :=
  let s1 := { self with mAvahiBrowser := false, mAvahiClient := false }
  let s2 := if s1.mAvahiPoll then { s1 with mAvahiPoll := false } else s1
  (NS_OK, s2)

/-- The method `Init`.  `pollOk` and `clientOk` say whether
`avahi_threaded_poll_new` and `avahi_client_new` return an object; on either
failure the scope guard runs `Close` and `NS_ERROR_FAILURE` is returned. -/
def Init (E : nsError) (self : AvahiInternal) (pollOk clientOk : Bool) :
    nsresult × AvahiInternal :=
  let s1 := { self with mAvahiPoll := pollOk }
  if !s1.mAvahiPoll then
    (E.NS_ERROR_FAILURE, (Close s1).2)
  else
    let s2 := { s1 with mAvahiClient := clientOk }
    if !s2.mAvahiClient then
      (E.NS_ERROR_FAILURE, (Close s2).2)
    else
      (NS_OK, s2)

/-- The method `BrowseService`.  `browserOk` says whether
`avahi_service_browser_new` returns an object; `NS_OK` is returned in either
case. -/
def BrowseService (self : AvahiInternal) (browserOk : Bool) : nsresult × AvahiInternal :=
  (NS_OK, { self with mAvahiBrowser := browserOk })

end AvahiInternal

/-- The class `AvahiOperator`: the service pointer (`none` for `nullptr`) and
the cancelled flag. -/
structure AvahiOperator where
  mService : Option AvahiInternal
  mIsCanceled : Bool
deriving DecidableEq, Repr

namespace AvahiOperator

/-- The constructor: `mService(nullptr), mIsCanceled(false)`. -/
def new : AvahiOperator :=
  { mService := none, mIsCanceled := false }

/-- The method `AvahiOperator::Stop`: if there is a service it is closed and
the pointer is set to `nullptr`, so the closed object is no longer part of the
state; returns `NS_OK`. -/
def Stop (self : AvahiOperator) : nsresult × AvahiOperator :=
  match self.mService with
  | some _ => (NS_OK, { self with mService := none })
  | none => (NS_OK, self)

/-- The method `Cancel`: `mIsCanceled = true`. -/
def Cancel (self : AvahiOperator) : AvahiOperator :=
  { self with mIsCanceled := true }

/-- The accessor `GetService`. -/
def GetService (self : AvahiOperator) : Option AvahiInternal := self.mService

/-- The method `AvahiOperator::Start`.  `virtualStop` is the `Stop` that the
virtual call reaches for the object at hand; `pollOk` and `clientOk` are
passed on to `Init`. -/
def Start (E : nsError) (virtualStop : AvahiOperator → nsresult × AvahiOperator)
    (self : AvahiOperator) (pollOk clientOk : Bool) : nsresult × AvahiOperator :=
  if self.mIsCanceled then
    (NS_OK, self)
  else
    let stopped := virtualStop self
    if E.NS_FAILED stopped.1 then
      (stopped.1, stopped.2)
    else
      let inited := AvahiInternal.Init E AvahiInternal.new pollOk clientOk
      let s2 := { stopped.2 with mService := some inited.2 }
      if E.NS_FAILED inited.1 then
        (inited.1, s2)
      else
        (NS_OK, s2)

/-- A call of one of the three public methods of an `AvahiOperator`. -/
inductive Call where
  | Start (pollOk clientOk : Bool)
  | Stop
  | Cancel
deriving DecidableEq, Repr

/-- Performs one call on an operator whose `Stop` is `AvahiOperator::Stop`. -/
def Call.apply (E : nsError) (c : Call) (self : AvahiOperator) : AvahiOperator :=
  match c with
  | Call.Start pollOk clientOk =>
    (AvahiOperator.Start E AvahiOperator.Stop self pollOk clientOk).2
  | Call.Stop => (AvahiOperator.Stop self).2
  | Call.Cancel => AvahiOperator.Cancel self

/-- Performs a sequence of calls, first call first. -/
def applyCalls (E : nsError) (self : AvahiOperator) (cs : List Call) : AvahiOperator :=
  cs.foldl (fun s c => c.apply E s) self

end AvahiOperator

/-- How a call ends: it returns a result code and leaves a state, or it calls
a method through a null pointer. -/
inductive Outcome (σ : Type) where
  | returns (rv : nsresult) (after : σ)
  | nullDereference
deriving DecidableEq, Repr

/-- The class `BrowseOperator`: an `AvahiOperator` with a service type and a
listener. -/
structure BrowseOperator extends AvahiOperator where
  mServiceType : String
  mListener : Nat
deriving DecidableEq, Repr

namespace BrowseOperator

/-- The constructor `BrowseOperator(aServiceType, aListener)`. -/
def new (aServiceType : String) (aListener : Nat) : BrowseOperator :=
  { toAvahiOperator := AvahiOperator.new, mServiceType := aServiceType, mListener := aListener }

/-- The method `BrowseOperator::Stop`: `return AvahiOperator::Stop();`. -/
def Stop (self : BrowseOperator) : nsresult × BrowseOperator :=
  let r := AvahiOperator.Stop self.toAvahiOperator
  (r.1, { self with toAvahiOperator := r.2 })

/-- The method `Cancel`, inherited from `AvahiOperator`. -/
def Cancel (self : BrowseOperator) : BrowseOperator :=
  { self with toAvahiOperator := AvahiOperator.Cancel self.toAvahiOperator }

/-- The method `BrowseOperator::Start`: the inner `AvahiOperator::Start`, whose
failure is returned, then `GetService()->BrowseService(mServiceType, this)`.
The virtual `Stop` of the inner call is `BrowseOperator::Stop`, which is
`AvahiOperator::Stop` on the base part. -/
def Start (E : nsError) (self : BrowseOperator) (pollOk clientOk browserOk : Bool) :
    Outcome BrowseOperator :=
  let inner := AvahiOperator.Start E AvahiOperator.Stop self.toAvahiOperator pollOk clientOk
  if E.NS_FAILED inner.1 then
    Outcome.returns inner.1 { self with toAvahiOperator := inner.2 }
  else
    match inner.2.GetService with
    | none => Outcome.nullDereference
    | some service =>
      let browsed := service.BrowseService browserOk
      Outcome.returns browsed.1
        { self with toAvahiOperator := { inner.2 with mService := some browsed.2 } }

end BrowseOperator

/-! ## Part 2: theorems -/

namespace gfx

/-- The bounding box contains every point of its first rectangle. -/
theorem IntRect.Union_contains_left (a b : IntRect) (px py : Int)
    (h : a.Contains px py) : (a.Union b).Contains px py := by
  simp only [IntRect.Contains, IntRect.Union] at h ⊢
  omega

/-- The bounding box contains every point of its second rectangle. -/
theorem IntRect.Union_contains_right (a b : IntRect) (px py : Int)
    (h : b.Contains px py) : (a.Union b).Contains px py := by
  simp only [IntRect.Contains, IntRect.Union] at h ⊢
  omega

end gfx

namespace SharedSurfacesChild

/-- Merging a dirty rect changes neither the consumer nor the key of a
record. -/
theorem ImageKeyData.MergeDirtyRect_key (e : ImageKeyData) (r : Option gfx.IntRect) :
    (e.MergeDirtyRect r).mManager = e.mManager ∧
    (e.MergeDirtyRect r).mImageKey = e.mImageKey := by
  unfold ImageKeyData.MergeDirtyRect
  split <;> exact ⟨rfl, rfl⟩

/-- What draining returns and leaves behind. -/
theorem ImageKeyData.TakeDirtyRect_facts (e : ImageKeyData) :
    e.TakeDirtyRect.1 = e.mDirtyRect ∧
    e.TakeDirtyRect.2.mDirtyRect = none ∧
    e.TakeDirtyRect.2.mManager = e.mManager ∧
    e.TakeDirtyRect.2.mImageKey = e.mImageKey := by
  cases hd : e.mDirtyRect <;> simp [ImageKeyData.TakeDirtyRect, Maybe.move, hd]

/-- C4 (draining is destructive): `TakeDirtyRect` returns the pending dirty
rect, present or absent, and leaves it absent in the record, whose manager and
image key are unchanged; a second `TakeDirtyRect` right after returns absent. -/
theorem ImageKeyData.TakeDirtyRect_destructive (e : ImageKeyData) :
    e.TakeDirtyRect.1 = e.mDirtyRect ∧
    e.TakeDirtyRect.2.mDirtyRect = none ∧
    e.TakeDirtyRect.2.mManager = e.mManager ∧
    e.TakeDirtyRect.2.mImageKey = e.mImageKey ∧
    e.TakeDirtyRect.2.TakeDirtyRect.1 = none := by
  cases hd : e.mDirtyRect <;> simp [ImageKeyData.TakeDirtyRect, Maybe.move, hd]

namespace SharedUserData

/-- The hit branch keeps consumer and key of the record and leaves it without
a pending dirty rect. -/
theorem UpdateKey_onHit_record (entry : ImageKeyData) (q : IpcResourceUpdateQueue)
    (aDirtyRect : Option gfx.IntRect) :
    (UpdateKey.onHit entry q aDirtyRect).1.mManager = entry.mManager ∧
    (UpdateKey.onHit entry q aDirtyRect).1.mImageKey = entry.mImageKey ∧
    (UpdateKey.onHit entry q aDirtyRect).1.mDirtyRect = none := by
  have hk := ImageKeyData.MergeDirtyRect_key entry aDirtyRect
  have ht := ImageKeyData.TakeDirtyRect_facts (entry.MergeDirtyRect aDirtyRect)
  unfold UpdateKey.onHit
  simp only
  split
  · exact ⟨ht.2.2.1.trans hk.1, ht.2.2.2.trans hk.2, ht.2.1⟩
  · exact ⟨ht.2.2.1.trans hk.1, ht.2.2.2.trans hk.2, ht.2.1⟩

/-- The hit branch on a record without pending dirty rect, with no new dirty
rect, changes neither the record nor the queue. -/
theorem UpdateKey_onHit_settled (entry : ImageKeyData) (q : IpcResourceUpdateQueue)
    (hnone : entry.mDirtyRect = none) :
    UpdateKey.onHit entry q none = (entry, q) := by
  obtain ⟨m, d, k⟩ := entry
  simp only at hnone
  subst hnone
  rfl

/-- Once the lookup has hit, a lookup on the records it leaves, with no new
dirty rect, hits the same key and changes neither records nor queue. -/
theorem UpdateKey_scan_again (aManager : Nat) (aDirtyRect : Option gfx.IntRect)
    (keys : List ImageKeyData) (q : IpcResourceUpdateQueue) (key : Nat)
    (keys1 : List ImageKeyData) (q1 : IpcResourceUpdateQueue)
    (h : UpdateKey.scan aManager aDirtyRect keys q = some (key, keys1, q1))
    (q2 : IpcResourceUpdateQueue) :
    UpdateKey.scan aManager none keys1 q2 = some (key, keys1, q2) := by
  induction keys generalizing keys1 with
  | nil => simp [UpdateKey.scan] at h
  | cons e rest ih =>
    unfold UpdateKey.scan at h
    by_cases he : e.mManager = aManager
    · simp only [he, if_true, Option.some.injEq, Prod.mk.injEq] at h
      obtain ⟨hk, hkeys, _⟩ := h
      have hrec := UpdateKey_onHit_record e q aDirtyRect
      subst hkeys
      unfold UpdateKey.scan
      rw [if_pos (hrec.1.trans he), UpdateKey_onHit_settled _ q2 hrec.2.2]
      simp only [Option.some.injEq, Prod.mk.injEq, and_true]
      exact hrec.2.1.trans hk
    · simp only [he, if_false] at h
      split at h
      · simp at h
      · rename_i key0 rest1 q0 hscan
        simp only [Option.some.injEq, Prod.mk.injEq] at h
        obtain ⟨hk, hkeys, hq⟩ := h
        subst hkeys
        subst hk
        subst hq
        unfold UpdateKey.scan
        rw [if_neg he, ih rest1 hscan]

/-- The lookup misses when no record is for the consumer. -/
theorem UpdateKey_scan_miss (aManager : Nat) (aDirtyRect : Option gfx.IntRect)
    (keys : List ImageKeyData) (q : IpcResourceUpdateQueue)
    (hno : ∀ e ∈ keys, e.mManager ≠ aManager) :
    UpdateKey.scan aManager aDirtyRect keys q = none := by
  induction keys with
  | nil => rfl
  | cons e rest ih =>
    unfold UpdateKey.scan
    rw [if_neg (hno e (List.mem_cons_self _ _)),
      ih (fun x hx => hno x (List.mem_cons_of_mem _ hx))]

/-- After a miss the record appended for the consumer is the one the next
lookup hits, with the new key and without any change. -/
theorem UpdateKey_scan_appended (aManager aNextKey : Nat)
    (keys : List ImageKeyData) (q2 : IpcResourceUpdateQueue)
    (hno : ∀ e ∈ keys, e.mManager ≠ aManager) :
    UpdateKey.scan aManager none (keys ++ [ImageKeyData.new aManager aNextKey]) q2
      = some (aNextKey, keys ++ [ImageKeyData.new aManager aNextKey], q2) := by
  induction keys with
  | nil =>
    simp [UpdateKey.scan, ImageKeyData.new, UpdateKey.onHit, ImageKeyData.MergeDirtyRect,
      ImageKeyData.TakeDirtyRect, Maybe.move]
  | cons e rest ih =>
    simp only [List.cons_append]
    unfold UpdateKey.scan
    rw [if_neg (hno e (List.mem_cons_self _ _)),
      ih (fun x hx => hno x (List.mem_cons_of_mem _ hx))]

/-- No key is recorded for a consumer exactly if no record is for it. -/
theorem keyFor_eq_none (d : SharedUserData) (aManager : Nat) :
    d.keyFor aManager = none ↔ ∀ e ∈ d.mKeys, e.mManager ≠ aManager := by
  unfold keyFor
  rw [Option.map_eq_none', List.find?_eq_none]
  simp

/-- After two merges the record has a pending dirty rect that contains every
point of both merged rectangles. -/
theorem MergeDirtyRect_twice_covers (e : ImageKeyData) (R1 R2 : gfx.IntRect) :
    ∃ rect : gfx.IntRect,
      ((e.MergeDirtyRect (some R1)).MergeDirtyRect (some R2)).mDirtyRect = some rect ∧
      (∀ px py : Int, R1.Contains px py → rect.Contains px py) ∧
      (∀ px py : Int, R2.Contains px py → rect.Contains px py) := by
  obtain ⟨m, d, k⟩ := e
  cases d with
  | none =>
    refine ⟨R1.Union R2, rfl, ?_, ?_⟩
    · intro px py h
      exact gfx.IntRect.Union_contains_left R1 R2 px py h
    · intro px py h
      exact gfx.IntRect.Union_contains_right R1 R2 px py h
  | some cur =>
    refine ⟨(cur.Union R1).Union R2, rfl, ?_, ?_⟩
    · intro px py h
      exact gfx.IntRect.Union_contains_left _ R2 px py
        (gfx.IntRect.Union_contains_right cur R1 px py h)
    · intro px py h
      exact gfx.IntRect.Union_contains_right _ R2 px py h

/-- The lookup on records into each of which `R1` and `R2` have been merged,
one of them being for the consumer, hits and appends a single update image,
for the key it returns and a rectangle containing `R1` and `R2`. -/
theorem UpdateKey_scan_covered (aManager : Nat) (R1 R2 : gfx.IntRect)
    (q : IpcResourceUpdateQueue) (keys : List ImageKeyData)
    (hmem : ∃ e ∈ keys, e.mManager = aManager) :
    ∃ (key : Nat) (keys1 : List ImageKeyData) (rect : gfx.IntRect),
      UpdateKey.scan aManager none
          ((keys.map (fun e => e.MergeDirtyRect (some R1))).map
            (fun e => e.MergeDirtyRect (some R2))) q
        = some (key, keys1, q ++ [ResourceUpdate.UpdateImage key rect]) ∧
      (∀ px py : Int, R1.Contains px py → rect.Contains px py) ∧
      (∀ px py : Int, R2.Contains px py → rect.Contains px py) := by
  induction keys with
  | nil =>
    obtain ⟨e, he, _⟩ := hmem
    simp at he
  | cons x rest ih =>
    simp only [List.map_cons]
    have hk1 := ImageKeyData.MergeDirtyRect_key x (some R1)
    have hk2 := ImageKeyData.MergeDirtyRect_key (x.MergeDirtyRect (some R1)) (some R2)
    by_cases hx : x.mManager = aManager
    · obtain ⟨rect, hrect, hc1, hc2⟩ := MergeDirtyRect_twice_covers x R1 R2
      have hm : ((x.MergeDirtyRect (some R1)).MergeDirtyRect (some R2)).mManager = aManager := by
        rw [hk2.1, hk1.1]
        exact hx
      have hk : ((x.MergeDirtyRect (some R1)).MergeDirtyRect (some R2)).mImageKey
          = x.mImageKey := by
        rw [hk2.2, hk1.2]
      generalize (x.MergeDirtyRect (some R1)).MergeDirtyRect (some R2) = y at hrect hm hk ⊢
      generalize (rest.map (fun e => e.MergeDirtyRect (some R1))).map
        (fun e => e.MergeDirtyRect (some R2)) = rest2
      obtain ⟨ym, yd, yk⟩ := y
      simp only at hrect hm hk
      subst hrect
      subst hk
      refine ⟨x.mImageKey,
        { mManager := ym, mDirtyRect := none, mImageKey := x.mImageKey } :: rest2,
        rect, ?_, hc1, hc2⟩
      unfold UpdateKey.scan
      rw [if_pos hm]
      rfl
    · have hrest : ∃ e ∈ rest, e.mManager = aManager := by
        obtain ⟨e, he, hm⟩ := hmem
        rcases List.mem_cons.mp he with h0 | h0
        · rw [h0] at hm
          exact absurd hm hx
        · exact ⟨e, h0, hm⟩
      obtain ⟨key, keys1, rect, hscan, hc1, hc2⟩ := ih hrest
      refine ⟨key, (x.MergeDirtyRect (some R1)).MergeDirtyRect (some R2) :: keys1,
        rect, ?_, hc1, hc2⟩
      unfold UpdateKey.scan
      rw [if_neg (by rw [hk2.1, hk1.1]; exact hx), hscan]

/-- The key recorded for a consumer depends on the records only. -/
theorem keyFor_mKeys (d d2 : SharedUserData) (h : d.mKeys = d2.mKeys) (aManager : Nat) :
    d.keyFor aManager = d2.keyFor aManager := by
  unfold keyFor
  rw [h]

/-- The call `UpdateKey` keeps the id and the shared flag of the entry. -/
theorem UpdateKey_keeps_id (d : SharedUserData) (aManager aNextKey : Nat)
    (q : IpcResourceUpdateQueue) (aDirtyRect : Option gfx.IntRect) :
    (d.UpdateKey aManager aNextKey q aDirtyRect).2.1.mId = d.mId ∧
    (d.UpdateKey aManager aNextKey q aDirtyRect).2.1.mShared = d.mShared := by
  unfold UpdateKey
  split <;> exact ⟨rfl, rfl⟩

/-- A second `UpdateKey` for the same consumer, with no dirty rect, returns
the key of the first and changes neither the entry nor the queue. -/
theorem UpdateKey_again (d : SharedUserData) (aManager aNextKey k2 : Nat)
    (q q2 : IpcResourceUpdateQueue) (aDirtyRect : Option gfx.IntRect) :
    (d.UpdateKey aManager aNextKey q aDirtyRect).2.1.UpdateKey aManager k2 q2 none
      = ((d.UpdateKey aManager aNextKey q aDirtyRect).1,
          (d.UpdateKey aManager aNextKey q aDirtyRect).2.1, q2) := by
  cases hscan : UpdateKey.scan aManager aDirtyRect d.mKeys q with
  | some r =>
    obtain ⟨key, keys1, q1⟩ := r
    have hfirst : d.UpdateKey aManager aNextKey q aDirtyRect
        = (key, { d with mKeys := keys1 }, q1) := by
      unfold UpdateKey
      rw [hscan]
    rw [hfirst]
    unfold UpdateKey
    simp only
    rw [UpdateKey_scan_again aManager aDirtyRect d.mKeys q key keys1 q1 hscan q2]
  | none =>
    have hfirst : d.UpdateKey aManager aNextKey q aDirtyRect
        = (aNextKey, { d with mKeys := d.mKeys ++ [ImageKeyData.new aManager aNextKey] },
            q ++ [ResourceUpdate.AddImage aNextKey d.Id]) := by
      unfold UpdateKey
      rw [hscan]
    have hno : ∀ e ∈ d.mKeys, e.mManager ≠ aManager := by
      intro e he hm
      have hmiss : ∀ (keys : List ImageKeyData), e ∈ keys →
          UpdateKey.scan aManager aDirtyRect keys q ≠ none := by
        intro keys
        induction keys with
        | nil => intro h0; simp at h0
        | cons x rest ih =>
          intro hmem
          unfold UpdateKey.scan
          by_cases hx : x.mManager = aManager
          · simp [hx]
          · rw [if_neg hx]
            have hrest : e ∈ rest := by
              rcases List.mem_cons.mp hmem with h0 | h0
              · rw [h0] at hm
                exact absurd hm hx
              · exact h0
            have := ih hrest
            split
            · rename_i hnone
              exact absurd hnone this
            · simp
      exact hmiss d.mKeys he hscan
    rw [hfirst]
    unfold UpdateKey
    simp only
    rw [UpdateKey_scan_appended aManager aNextKey d.mKeys q2 hno]

/-- The flag after one more call at the end of a sequence. -/
theorem applyCalls_append_singleton (d : SharedUserData) (cs : List Call) (c : Call) :
    d.applyCalls (cs ++ [c]) = c.apply (d.applyCalls cs) := by
  simp [applyCalls, List.foldl_append]

/-- After a non-empty sequence the flag is set exactly if the last call is
`MarkShared`; after the empty sequence it is what it was. -/
theorem IsShared_applyCalls (d : SharedUserData) (cs : List Call) :
    (d.applyCalls cs).IsShared = true ↔
      (cs = [] ∧ d.IsShared = true) ∨ cs.getLast? = some Call.MarkShared := by
  induction cs using List.reverseRecOn with
  | nil => simp [applyCalls]
  | append_singleton cs c _ =>
    rw [applyCalls_append_singleton]
    cases c <;> simp [Call.apply, SetId, MarkShared, IsShared]

/-- An entry has an id after a sequence of calls exactly if it had one before
or a `SetId` is among the calls. -/
theorem isSome_Id_applyCalls (d : SharedUserData) (cs : List Call) :
    (d.applyCalls cs).Id.isSome = true ↔
      d.Id.isSome = true ∨ ∃ aId, Call.SetId aId ∈ cs := by
  induction cs using List.reverseRecOn with
  | nil => simp [applyCalls]
  | append_singleton cs c ih =>
    rw [applyCalls_append_singleton]
    cases c with
    | SetId aId =>
      simp only [Call.apply, SetId, Id, Option.isSome_some, true_iff]
      exact Or.inr ⟨aId, by simp⟩
    | MarkShared =>
      have hkeep : (Call.MarkShared.apply (d.applyCalls cs)).Id = (d.applyCalls cs).Id := rfl
      rw [hkeep, ih]
      simp

/-- C5, refuted as stated: the default constructor followed by one
`MarkShared` (entered with its assertion true) gives an entry with
`IsShared()` true for which no id was ever supplied. -/
theorem shared_without_handle_counterexample :
    (SharedUserData.new.applyCalls [Call.MarkShared]).IsShared = true ∧
    (SharedUserData.new.applyCalls [Call.MarkShared]).Id = none ∧
    SharedUserData.new.assertionsHold [Call.MarkShared] = true := by
  decide

/-- C5, amended: for an entry reached from the id-taking constructor by any
sequence of `SetId` and `MarkShared` calls, `IsShared()` true implies that the
entry has a handle; for an entry reached from the default constructor the
implication holds exactly when the sequence is empty or contains a `SetId`. -/
theorem shared_implies_handle_amended (cs : List Call) :
    (∀ aId : Nat, ((SharedUserData.newWithId aId).applyCalls cs).IsShared = true →
      ((SharedUserData.newWithId aId).applyCalls cs).Id.isSome = true) ∧
    (((SharedUserData.new.applyCalls cs).IsShared = true →
        (SharedUserData.new.applyCalls cs).Id.isSome = true) ↔
      (cs = [] ∨ ∃ aId, Call.SetId aId ∈ cs)) := by
  constructor
  · intro aId _
    rw [isSome_Id_applyCalls]
    exact Or.inl rfl
  · rw [isSome_Id_applyCalls, IsShared_applyCalls]
    constructor
    · intro h
      by_cases hnil : cs = []
      · exact Or.inl hnil
      · right
        by_cases hset : ∃ aId, Call.SetId aId ∈ cs
        · exact hset
        · exfalso
          have hall : ∀ c ∈ cs, c = Call.MarkShared := by
            intro c hc
            cases c with
            | SetId aId => exact absurd ⟨aId, hc⟩ hset
            | MarkShared => rfl
          have hlast : cs.getLast? = some Call.MarkShared := by
            rw [List.getLast?_eq_getLast _ hnil]
            exact congrArg some (hall _ (List.getLast_mem hnil))
          rcases h (Or.inr hlast) with h0 | h1
          · simp [SharedUserData.new, Id] at h0
          · exact hset h1
    · intro h hshared
      rcases h with hnil | hset
      · subst hnil
        simp [SharedUserData.new, IsShared] at hshared
      · exact Or.inr hset

/-- C5 amended, at the default constructor followed by `SetId 5` and
`MarkShared`: the entry is shared and has the handle 5. -/
theorem shared_implies_handle_amended_witness :
    (SharedUserData.new.applyCalls [Call.SetId 5, Call.MarkShared]).Id.isSome = true :=
  ((shared_implies_handle_amended [Call.SetId 5, Call.MarkShared]).2.mpr
    (Or.inr ⟨5, by decide⟩)) (by decide)

/-- C8 (the shared flag is set only by confirmation): after any sequence of
`SetId` and `MarkShared` calls on a freshly constructed entry, from either
constructor, `IsShared()` is true if and only if the sequence is non-empty and
its last call is `MarkShared`; no constructor and no `SetId` gives a shared
entry.  This holds for every sequence, so in particular for those that enter
`MarkShared` only with `IsShared()` false. -/
theorem IsShared_iff_last_call_MarkShared (cs : List Call) :
    ((SharedUserData.new.applyCalls cs).IsShared = true ↔
      (cs ≠ [] ∧ cs.getLast? = some Call.MarkShared)) ∧
    (∀ aId : Nat, ((SharedUserData.newWithId aId).applyCalls cs).IsShared = true ↔
      (cs ≠ [] ∧ cs.getLast? = some Call.MarkShared)) ∧
    SharedUserData.new.IsShared = false ∧
    (∀ aId : Nat, (SharedUserData.newWithId aId).IsShared = false) ∧
    (∀ (d : SharedUserData) (aId : Nat), (d.SetId aId).IsShared = false) := by
  have hlast : cs.getLast? = some Call.MarkShared →
      (cs ≠ [] ∧ cs.getLast? = some Call.MarkShared) := by
    intro h
    refine ⟨?_, h⟩
    intro hnil
    subst hnil
    simp at h
  refine ⟨?_, ?_, rfl, fun _ => rfl, fun _ _ => rfl⟩
  · rw [IsShared_applyCalls]
    constructor
    · intro h
      rcases h with h | h
      · simp [SharedUserData.new, IsShared] at h
      · exact hlast h
    · intro h
      exact Or.inr h.2
  · intro aId
    rw [IsShared_applyCalls]
    constructor
    · intro h
      rcases h with h | h
      · simp [SharedUserData.newWithId, IsShared] at h
      · exact hlast h
    · intro h
      exact Or.inr h.2

end SharedUserData

/-- The entry just attached to a surface is the one found for it. -/
theorem Cache.find_set_same (cache : Cache) (surface : Nat) (entry : SharedUserData) :
    Cache.find (Cache.set cache surface entry) surface = some entry := by
  induction cache with
  | nil => simp [Cache.set, Cache.find]
  | cons p rest ih =>
    obtain ⟨s, e⟩ := p
    by_cases hs : s = surface
    · simp [Cache.set, Cache.find, hs]
    · simp [Cache.set, Cache.find, hs, ih]

/-- No pair of a filtered table is found for a surface all of whose pairs are
filtered out. -/
theorem Cache.find_filter_none (keep : Nat × SharedUserData → Bool) (surface : Nat)
    (cache : Cache) (hdrop : ∀ p ∈ cache, p.1 = surface → keep p = false) :
    Cache.find (cache.filter keep) surface = none := by
  induction cache with
  | nil => simp [Cache.find]
  | cons p rest ih =>
    obtain ⟨s, e⟩ := p
    have hrest : ∀ p ∈ rest, p.1 = surface → keep p = false :=
      fun p hp => hdrop p (List.mem_cons_of_mem _ hp)
    by_cases hs : s = surface
    · have hk : keep (s, e) = false := hdrop (s, e) (List.mem_cons_self _ _) hs
      rw [List.filter_cons_of_neg (by simp [hk])]
      exact ih hrest
    · cases hk : keep (s, e)
      · rw [List.filter_cons_of_neg (by simp [hk])]
        exact ih hrest
      · rw [List.filter_cons_of_pos hk]
        simp [Cache.find, hs, ih hrest]

/-- A surface whose entry carries the handle has no entry once the handle is
removed. -/
theorem Cache.find_removeHandle (cache : Cache) (surface handle : Nat)
    (h : (Cache.find cache surface).bind SharedUserData.Id = some handle) :
    Cache.find (Cache.removeHandle cache handle) surface = none := by
  apply Cache.find_filter_none
  intro p _ hp
  rw [hp, h]
  simp

namespace Coordinator

/-- A successful `ShareForExternalId` leaves the surface with a shared entry
that carries the returned handle. -/
theorem ShareForExternalId_ok_entry (c : Coordinator) (surface : Nat) (transportOk : Bool)
    (handle : Nat) (c1 : Coordinator)
    (h1 : c.ShareForExternalId surface transportOk = (Except.ok handle, c1)) :
    ∃ entry, Cache.find c1.cache surface = some entry ∧ entry.IsShared = true ∧
      entry.Id = some handle ∧
      entry.mKeys = ((Cache.find c.cache surface).getD SharedUserData.new).mKeys := by
  unfold ShareForExternalId at h1
  simp only at h1
  split at h1
  · rename_i hshared
    split at h1
    · rename_i h0 hid
      simp only [Prod.mk.injEq, Except.ok.injEq] at h1
      obtain ⟨hh, hc⟩ := h1
      subst hc
      subst hh
      cases hfind : Cache.find c.cache surface with
      | none =>
        rw [hfind] at hshared
        simp [SharedUserData.new, SharedUserData.IsShared] at hshared
      | some entry =>
        rw [hfind] at hshared hid
        exact ⟨entry, rfl, hshared, hid, by simp⟩
    · simp at h1
  · split at h1
    · simp at h1
    · rename_i h0 c0 hall
      cases transportOk with
      | false => simp at h1
      | true =>
        simp only [if_true, Prod.mk.injEq, Except.ok.injEq] at h1
        obtain ⟨hh, hc⟩ := h1
        subst hc
        subst hh
        refine ⟨_, Cache.find_set_same _ _ _, rfl, rfl, rfl⟩

/-- C1 (idempotent share): after a successful `ShareForExternalId` a second
call on the same surface, with no unshare in between, returns the same handle
and leaves the coordinator as it is: it finds `IsShared()` true, makes no call
of the transport mapper and no call of `MarkShared`.  When the surface was not
shared before the first call, that call makes exactly one call of the
transport mapper and one of `MarkShared`, entered with its assertion true;
when it was shared already, the first call makes none either. -/
theorem ShareForExternalId_idempotent (c : Coordinator) (surface : Nat)
    (transportOk1 transportOk2 : Bool) (handle : Nat) (c1 : Coordinator)
    (h1 : c.ShareForExternalId surface transportOk1 = (Except.ok handle, c1)) :
    c1.ShareForExternalId surface transportOk2 = (Except.ok handle, c1) ∧
    (Cache.find c1.cache surface).map SharedUserData.IsShared = some true ∧
    (((Cache.find c.cache surface).getD SharedUserData.new).IsShared = false →
      c1.events = c.events ++
        [Event.MapSurface surface handle, Event.MarkShared surface true] ∧
      (c1.events.filter Event.isMap).length = (c.events.filter Event.isMap).length + 1 ∧
      (c1.events.filter Event.isMarkShared).length
        = (c.events.filter Event.isMarkShared).length + 1) ∧
    (((Cache.find c.cache surface).getD SharedUserData.new).IsShared = true → c1 = c) := by
  obtain ⟨entry, hfind, hshared, hid, _⟩ :=
    ShareForExternalId_ok_entry c surface transportOk1 handle c1 h1
  refine ⟨?_, ?_, ?_, ?_⟩
  · unfold ShareForExternalId
    simp [hfind, hshared, hid]
  · simp [hfind, hshared]
  · intro hnot
    have hev : c1.events = c.events ++
        [Event.MapSurface surface handle, Event.MarkShared surface true] := by
      unfold ShareForExternalId at h1
      cases transportOk1 with
      | false =>
        simp only [hnot, Bool.false_eq_true, if_false] at h1
        split at h1 <;> simp at h1
      | true =>
        cases hid0 : ((Cache.find c.cache surface).getD SharedUserData.new).Id with
        | some h0 =>
          simp only [hnot, hid0, Bool.false_eq_true, if_false, if_true, Prod.mk.injEq,
            Except.ok.injEq] at h1
          obtain ⟨hh, hc⟩ := h1
          subst hc
          subst hh
          simp only [SharedUserData.MarkSharedAssertion, List.append_assoc,
            List.singleton_append]
          rw [show ((Cache.find c.cache surface).getD SharedUserData.new).mShared = false
            from hnot]
          rfl
        | none =>
          simp only [hnot, hid0, Bool.false_eq_true, if_false] at h1
          unfold Allocate at h1
          by_cases hlt : c.nextHandle < 2 ^ 64
          · rw [if_pos hlt] at h1
            simp only [if_true, Prod.mk.injEq, Except.ok.injEq] at h1
            obtain ⟨hh, hc⟩ := h1
            subst hc
            subst hh
            simp only [SharedUserData.MarkSharedAssertion, List.append_assoc,
              List.singleton_append]
            rw [show ((Cache.find c.cache surface).getD SharedUserData.new).mShared = false
              from hnot]
            rfl
          · rw [if_neg hlt] at h1
            simp at h1
    refine ⟨hev, ?_, ?_⟩
    · rw [hev]
      simp [List.filter_append, Event.isMap]
    · rw [hev]
      simp [List.filter_append, Event.isMarkShared]
  · intro hyes
    unfold ShareForExternalId at h1
    simp only [hyes, if_true] at h1
    split at h1
    · simp only [Prod.mk.injEq] at h1
      exact h1.2.symm
    · simp at h1

/-- C1, at an empty coordinator and surface 7: the first call allocates the
handle 0, maps once and marks the entry shared; the second call, even with a
transport that would refuse, returns the handle 0 and changes nothing. -/
theorem ShareForExternalId_idempotent_witness :
    ShareForExternalId
        { nextHandle := 0, cache := [], reusable := [], discards := [], events := [] } 7 true
      = (Except.ok 0,
          { nextHandle := 1
            cache := [(7, { mKeys := [], mId := some 0, mShared := true })]
            reusable := []
            discards := []
            events := [Event.MapSurface 7 0, Event.MarkShared 7 true] }) ∧
    ShareForExternalId
        { nextHandle := 1
          cache := [(7, { mKeys := [], mId := some 0, mShared := true })]
          reusable := []
          discards := []
          events := [Event.MapSurface 7 0, Event.MarkShared 7 true] } 7 false
      = (Except.ok 0,
          { nextHandle := 1
            cache := [(7, { mKeys := [], mId := some 0, mShared := true })]
            reusable := []
            discards := []
            events := [Event.MapSurface 7 0, Event.MarkShared 7 true] }) :=
  ⟨by decide,
    (ShareForExternalId_idempotent
      { nextHandle := 0, cache := [], reusable := [], discards := [], events := [] } 7
      true false 0 _ (by decide)).1⟩

/-- What a successful `ShareForImageKey` has done: a successful
`ShareForExternalId`, then `UpdateKey` on the entry of the surface. -/
theorem ShareForImageKey_ok_inv (c : Coordinator) (surface aManager : Nat)
    (q : IpcResourceUpdateQueue) (transportOk : Bool) (aNextKey key : Nat)
    (c1 : Coordinator) (q1 : IpcResourceUpdateQueue)
    (h1 : c.ShareForImageKey surface aManager q transportOk aNextKey = (Except.ok key, c1, q1)) :
    ∃ (handle : Nat) (c0 : Coordinator) (entry : SharedUserData),
      c.ShareForExternalId surface transportOk = (Except.ok handle, c0) ∧
      Cache.find c0.cache surface = some entry ∧
      key = (entry.UpdateKey aManager aNextKey q none).1 ∧
      c1 = { c0 with
        cache := c0.cache.set surface (entry.UpdateKey aManager aNextKey q none).2.1 } ∧
      q1 = (entry.UpdateKey aManager aNextKey q none).2.2 := by
  unfold ShareForImageKey at h1
  split at h1
  · simp at h1
  · rename_i r handle c0 hshare
    split at h1
    · simp at h1
    · rename_i entry hfind
      simp only [Prod.mk.injEq, Except.ok.injEq] at h1
      obtain ⟨hk, hc, hq⟩ := h1
      exact ⟨handle, c0, entry, hshare, hfind, hk.symm, hc.symm, hq.symm⟩

/-- On a surface whose entry is shared `ShareForExternalId` returns the handle
of the entry and changes nothing. -/
theorem ShareForExternalId_shared (c : Coordinator) (surface : Nat) (transportOk : Bool)
    (entry : SharedUserData) (handle : Nat)
    (hfind : Cache.find c.cache surface = some entry)
    (hshared : entry.IsShared = true) (hid : entry.Id = some handle) :
    c.ShareForExternalId surface transportOk = (Except.ok handle, c) := by
  unfold ShareForExternalId
  simp [hfind, hshared, hid]

/-- On a surface whose entry is shared `ShareForImageKey` is `UpdateKey` on
that entry. -/
theorem ShareForImageKey_shared (c : Coordinator) (surface aManager : Nat)
    (q : IpcResourceUpdateQueue) (transportOk : Bool) (aNextKey : Nat)
    (entry : SharedUserData) (handle : Nat)
    (hfind : Cache.find c.cache surface = some entry)
    (hshared : entry.IsShared = true) (hid : entry.Id = some handle) :
    c.ShareForImageKey surface aManager q transportOk aNextKey
      = (Except.ok (entry.UpdateKey aManager aNextKey q none).1,
          { c with cache := c.cache.set surface (entry.UpdateKey aManager aNextKey q none).2.1 },
          (entry.UpdateKey aManager aNextKey q none).2.2) := by
  unfold ShareForImageKey
  rw [ShareForExternalId_shared c surface transportOk entry handle hfind hshared hid]
  simp only
  rw [hfind]

/-- C2 (key stability): after a successful `ShareForImageKey` a second call for
the same surface and consumer, with no dirty-rect notification in between,
succeeds, returns the same consumer-local key and appends nothing to the
queue.  When the surface had no record for the consumer before the first call,
that call appends exactly one add-image instruction, for the returned key and
the handle of the surface, so in total the two calls append exactly one add
image and no update image. -/
theorem ShareForImageKey_key_stable (c : Coordinator) (surface aManager : Nat)
    (q : IpcResourceUpdateQueue) (transportOk1 transportOk2 : Bool) (k1 k2 key : Nat)
    (c1 : Coordinator) (q1 : IpcResourceUpdateQueue)
    (h1 : c.ShareForImageKey surface aManager q transportOk1 k1 = (Except.ok key, c1, q1)) :
    (c1.ShareForImageKey surface aManager q1 transportOk2 k2).1 = Except.ok key ∧
    (c1.ShareForImageKey surface aManager q1 transportOk2 k2).2.2 = q1 ∧
    (((Cache.find c.cache surface).getD SharedUserData.new).keyFor aManager = none →
      key = k1 ∧
      q1 = q ++ [ResourceUpdate.AddImage key (c1.GetExternalId surface)] ∧
      (c1.GetExternalId surface).isSome = true ∧
      ((c1.ShareForImageKey surface aManager q1 transportOk2 k2).2.2.filter
          ResourceUpdate.isAdd).length = (q.filter ResourceUpdate.isAdd).length + 1 ∧
      ((c1.ShareForImageKey surface aManager q1 transportOk2 k2).2.2.filter
          ResourceUpdate.isUpdate).length = (q.filter ResourceUpdate.isUpdate).length) := by
  obtain ⟨handle, c0, entry, hshare, hfind0, hkey, hc1, hq1⟩ :=
    ShareForImageKey_ok_inv c surface aManager q transportOk1 k1 key c1 q1 h1
  obtain ⟨entry0, hfind0b, hshared0, hid0, hkeys0⟩ :=
    ShareForExternalId_ok_entry c surface transportOk1 handle c0 hshare
  have hentry : entry0 = entry := by
    rw [hfind0] at hfind0b
    exact (Option.some.inj hfind0b).symm
  subst hentry
  have hkeep := SharedUserData.UpdateKey_keeps_id entry0 aManager k1 q none
  have hfind1 : Cache.find c1.cache surface = some (entry0.UpdateKey aManager k1 q none).2.1 := by
    rw [hc1]
    exact Cache.find_set_same _ _ _
  have hshared1 : (entry0.UpdateKey aManager k1 q none).2.1.IsShared = true := by
    unfold SharedUserData.IsShared
    rw [hkeep.2]
    exact hshared0
  have hid1 : (entry0.UpdateKey aManager k1 q none).2.1.Id = some handle := by
    unfold SharedUserData.Id
    rw [hkeep.1]
    exact hid0
  have hsecond := ShareForImageKey_shared c1 surface aManager q1 transportOk2 k2
    (entry0.UpdateKey aManager k1 q none).2.1 handle hfind1 hshared1 hid1
  rw [SharedUserData.UpdateKey_again] at hsecond
  have hq2 : (c1.ShareForImageKey surface aManager q1 transportOk2 k2).2.2 = q1 := by
    rw [hsecond]
  refine ⟨?_, hq2, ?_⟩
  · rw [hsecond, hkey]
  · intro hmiss
    rw [← SharedUserData.keyFor_mKeys entry0 _ hkeys0, SharedUserData.keyFor_eq_none] at hmiss
    have hfirst : entry0.UpdateKey aManager k1 q none
        = (k1, { entry0 with mKeys := entry0.mKeys ++ [ImageKeyData.new aManager k1] },
            q ++ [ResourceUpdate.AddImage k1 entry0.Id]) := by
      unfold SharedUserData.UpdateKey
      rw [SharedUserData.UpdateKey_scan_miss aManager none entry0.mKeys q hmiss]
    have hk : key = k1 := by rw [hkey, hfirst]
    have hext : c1.GetExternalId surface = some handle := by
      unfold GetExternalId
      rw [hfind1]
      simp [hshared1, hid1]
    have hq : q1 = q ++ [ResourceUpdate.AddImage key (c1.GetExternalId surface)] := by
      rw [hq1, hfirst, hext, hk, hid0]
    refine ⟨hk, hq, by rw [hext]; rfl, ?_, ?_⟩
    · rw [hq2, hq]
      simp [List.filter_append, ResourceUpdate.isAdd]
    · rw [hq2, hq]
      simp [List.filter_append, ResourceUpdate.isUpdate]

/-- C2, at an empty coordinator, surface 7 and consumer 1 with next key 11:
the first call appends the one add image for key 11 and handle 0, the second
returns key 11 again and leaves the queue as it is. -/
theorem ShareForImageKey_key_stable_witness :
    ShareForImageKey
        { nextHandle := 0, cache := [], reusable := [], discards := [], events := [] }
        7 1 [] true 11
      = (Except.ok 11,
          { nextHandle := 1
            cache := [(7, { mKeys := [{ mManager := 1, mDirtyRect := none, mImageKey := 11 }]
                            mId := some 0
                            mShared := true })]
            reusable := []
            discards := []
            events := [Event.MapSurface 7 0, Event.MarkShared 7 true] },
          [ResourceUpdate.AddImage 11 (some 0)]) ∧
    (ShareForImageKey
        { nextHandle := 1
          cache := [(7, { mKeys := [{ mManager := 1, mDirtyRect := none, mImageKey := 11 }]
                          mId := some 0
                          mShared := true })]
          reusable := []
          discards := []
          events := [Event.MapSurface 7 0, Event.MarkShared 7 true] }
        7 1 [ResourceUpdate.AddImage 11 (some 0)] false 12).1 = Except.ok 11 ∧
    (ShareForImageKey
        { nextHandle := 1
          cache := [(7, { mKeys := [{ mManager := 1, mDirtyRect := none, mImageKey := 11 }]
                          mId := some 0
                          mShared := true })]
          reusable := []
          discards := []
          events := [Event.MapSurface 7 0, Event.MarkShared 7 true] }
        7 1 [ResourceUpdate.AddImage 11 (some 0)] false 12).2.2
      = [ResourceUpdate.AddImage 11 (some 0)] :=
  ⟨by decide,
    (ShareForImageKey_key_stable
      { nextHandle := 0, cache := [], reusable := [], discards := [], events := [] }
      7 1 [] true false 11 12 11 _ _ (by decide)).1,
    (ShareForImageKey_key_stable
      { nextHandle := 0, cache := [], reusable := [], discards := [], events := [] }
      7 1 [] true false 11 12 11 _ _ (by decide)).2.1⟩

/-- The entry of a surface after `NotifyDirty`: the dirty rect is merged into
each of its records. -/
theorem NotifyDirty_find (c : Coordinator) (surface : Nat) (aDirtyRect : gfx.IntRect)
    (entry : SharedUserData) (hfind : Cache.find c.cache surface = some entry) :
    Cache.find (c.NotifyDirty surface aDirtyRect).cache surface
      = some { entry with
          mKeys := entry.mKeys.map (fun e => e.MergeDirtyRect (some aDirtyRect)) } := by
  unfold NotifyDirty
  rw [hfind]
  exact Cache.find_set_same _ _ _

/-- C3 (dirty-rect union): when the entry of a surface has a record for the
consumer, two dirty-rect notifications `R1` then `R2` followed by a successful
`ShareForImageKey` for that consumer append a single instruction to the queue,
an update image for the returned key whose rectangle contains every point of
`R1` and every point of `R2`. -/
theorem NotifyDirty_union_covers (c : Coordinator) (surface aManager : Nat)
    (R1 R2 : gfx.IntRect) (q : IpcResourceUpdateQueue) (transportOk : Bool)
    (aNextKey key : Nat) (c3 : Coordinator) (q3 : IpcResourceUpdateQueue)
    (hrec : ∃ entry, Cache.find c.cache surface = some entry ∧
      ∃ e ∈ entry.mKeys, e.mManager = aManager)
    (h : ((c.NotifyDirty surface R1).NotifyDirty surface R2).ShareForImageKey
        surface aManager q transportOk aNextKey = (Except.ok key, c3, q3)) :
    ∃ rect : gfx.IntRect,
      q3 = q ++ [ResourceUpdate.UpdateImage key rect] ∧
      (∀ px py : Int, R1.Contains px py → rect.Contains px py) ∧
      (∀ px py : Int, R2.Contains px py → rect.Contains px py) := by
  obtain ⟨entry, hfind, hmem⟩ := hrec
  have hfind2 := NotifyDirty_find (c.NotifyDirty surface R1) surface R2 _
    (NotifyDirty_find c surface R1 entry hfind)
  obtain ⟨handle, c0, entry3, hshare, hfind3, hkey, _, hq3⟩ :=
    ShareForImageKey_ok_inv _ surface aManager q transportOk aNextKey key c3 q3 h
  obtain ⟨entry3b, hfind3b, _, _, hkeys3⟩ :=
    ShareForExternalId_ok_entry _ surface transportOk handle c0 hshare
  have hentry : entry3b = entry3 := by
    rw [hfind3] at hfind3b
    exact (Option.some.inj hfind3b).symm
  subst hentry
  rw [hfind2] at hkeys3
  simp only [Option.getD_some] at hkeys3
  obtain ⟨key0, keys1, rect, hscan, hc1, hc2⟩ :=
    SharedUserData.UpdateKey_scan_covered aManager R1 R2 q entry.mKeys hmem
  have hupdate : entry3b.UpdateKey aManager aNextKey q none
      = (key0, { entry3b with mKeys := keys1 }, q ++ [ResourceUpdate.UpdateImage key0 rect]) := by
    unfold SharedUserData.UpdateKey
    rw [hkeys3, hscan]
  refine ⟨rect, ?_, hc1, hc2⟩
  rw [hq3, hkey, hupdate]

/-- C3, at a surface with one record for consumer 1 and the rectangles
(0,0,10,10) and (20,20,5,5): the one instruction appended is an update image
for key 11 with the rectangle (0,0,25,25), which contains both. -/
theorem NotifyDirty_union_covers_witness :
    ShareForImageKey
        (NotifyDirty
          (NotifyDirty
            { nextHandle := 1
              cache := [(7, { mKeys := [{ mManager := 1, mDirtyRect := none, mImageKey := 11 }]
                              mId := some 0
                              mShared := true })]
              reusable := []
              discards := []
              events := [] }
            7 { x := 0, y := 0, width := 10, height := 10 })
          7 { x := 20, y := 20, width := 5, height := 5 })
        7 1 [] false 12
      = (Except.ok 11,
          { nextHandle := 1
            cache := [(7, { mKeys := [{ mManager := 1, mDirtyRect := none, mImageKey := 11 }]
                            mId := some 0
                            mShared := true })]
            reusable := []
            discards := []
            events := [] },
          [ResourceUpdate.UpdateImage 11 { x := 0, y := 0, width := 25, height := 25 }]) ∧
    ∃ rect : gfx.IntRect,
      [ResourceUpdate.UpdateImage 11 { x := 0, y := 0, width := 25, height := 25 }]
        = [] ++ [ResourceUpdate.UpdateImage 11 rect] ∧
      (∀ px py : Int,
        gfx.IntRect.Contains { x := 0, y := 0, width := 10, height := 10 } px py →
          rect.Contains px py) ∧
      (∀ px py : Int,
        gfx.IntRect.Contains { x := 20, y := 20, width := 5, height := 5 } px py →
          rect.Contains px py) :=
  ⟨by decide,
    NotifyDirty_union_covers
      { nextHandle := 1
        cache := [(7, { mKeys := [{ mManager := 1, mDirtyRect := none, mImageKey := 11 }]
                        mId := some 0
                        mShared := true })]
        reusable := []
        discards := []
        events := [] }
      7 1 { x := 0, y := 0, width := 10, height := 10 }
      { x := 20, y := 20, width := 5, height := 5 } [] false 12 11
      { nextHandle := 1
        cache := [(7, { mKeys := [{ mManager := 1, mDirtyRect := none, mImageKey := 11 }]
                        mId := some 0
                        mShared := true })]
        reusable := []
        discards := []
        events := [] }
      [ResourceUpdate.UpdateImage 11 { x := 0, y := 0, width := 25, height := 25 }]
      ⟨_, rfl, _, List.mem_cons_self _ _, rfl⟩ (by decide)⟩

/-- C6 (teardown completeness): `Unshare` hands out exactly one delete-image
instruction per consumer record, in order and each for the key of its record,
so `n` instructions for `n` records, and removes the cache entry: a surface
whose entry carried the handle has no entry afterwards and `GetExternalId`
returns absent for it. -/
theorem Unshare_teardown_complete (c : Coordinator) (aId : Nat) (aReleaseId : Bool)
    (aKeys : List ImageKeyData) (surface : Nat)
    (hbound : (Cache.find c.cache surface).bind SharedUserData.Id = some aId) :
    (∃ enqueued : List (Nat × ResourceUpdate),
      (c.Unshare aId aReleaseId aKeys).discards = c.discards ++ enqueued ∧
      enqueued.length = aKeys.length ∧
      (enqueued.filter (fun p => p.2.isDelete)).length = aKeys.length ∧
      enqueued.map (fun p => p.2)
        = aKeys.map (fun e => ResourceUpdate.DeleteImage e.mImageKey) ∧
      enqueued.map (fun p => p.1) = aKeys.map (fun e => e.mManager)) ∧
    Cache.find (c.Unshare aId aReleaseId aKeys).cache surface = none ∧
    (c.Unshare aId aReleaseId aKeys).GetExternalId surface = none := by
  have hgone : Cache.find (c.Unshare aId aReleaseId aKeys).cache surface = none :=
    Cache.find_removeHandle c.cache surface aId hbound
  refine ⟨⟨aKeys.map
      (fun e : ImageKeyData => (e.mManager, ResourceUpdate.DeleteImage e.mImageKey)),
    rfl, by simp, ?_, by simp, by simp⟩, hgone, ?_⟩
  · rw [List.filter_eq_self.mpr]
    · simp
    · intro p hp
      rw [List.mem_map] at hp
      obtain ⟨e, _, he⟩ := hp
      rw [← he]
      rfl
  · unfold GetExternalId
    rw [hgone]

/-- C6, with two consumer records: exactly two delete-image instructions, for
the keys 11 and 12, and no external id any more for the surface 7. -/
theorem Unshare_teardown_complete_witness :
    (Unshare
        { nextHandle := 1
          cache := [(7, { mKeys := [], mId := some 0, mShared := true })]
          reusable := []
          discards := []
          events := [] } 0 true
        [{ mManager := 1, mDirtyRect := none, mImageKey := 11 },
         { mManager := 2, mDirtyRect := none, mImageKey := 12 }]).discards
      = [(1, ResourceUpdate.DeleteImage 11), (2, ResourceUpdate.DeleteImage 12)] ∧
    (Unshare
        { nextHandle := 1
          cache := [(7, { mKeys := [], mId := some 0, mShared := true })]
          reusable := []
          discards := []
          events := [] } 0 true
        [{ mManager := 1, mDirtyRect := none, mImageKey := 11 },
         { mManager := 2, mDirtyRect := none, mImageKey := 12 }]).GetExternalId 7 = none :=
  ⟨by decide,
    (Unshare_teardown_complete
      { nextHandle := 1
        cache := [(7, { mKeys := [], mId := some 0, mShared := true })]
        reusable := []
        discards := []
        events := [] } 0 true
      [{ mManager := 1, mDirtyRect := none, mImageKey := 11 },
       { mManager := 2, mDirtyRect := none, mImageKey := 12 }] 7 (by decide)).2.2⟩

end Coordinator

/-- The key recorded for a consumer is read off the list of the (consumer,
key) pairs of the records. -/
theorem SharedUserData.keyFor_eq (d : SharedUserData) (aManager : Nat) :
    d.keyFor aManager
      = ((d.mKeys.map (fun e => (e.mManager, e.mImageKey))).find?
          (fun p => decide (p.1 = aManager))).map (fun p => p.2) := by
  unfold SharedUserData.keyFor
  induction d.mKeys with
  | nil => rfl
  | cons e rest ih =>
    by_cases he : e.mManager = aManager
    · simp [List.find?_cons, he]
    · simpa [List.find?_cons, he] using ih

end SharedSurfacesChild

namespace SharedSurfacesAnimation

open SharedSurfacesChild

/-- One frame change, whatever its outcome, leaves the (consumer, key) pairs
of the records of the owner as they are. -/
theorem SetCurrentFrame_keeps_keys (self : SharedSurfacesAnimation) (c : Coordinator)
    (aSurface : Nat) (aDirtyRect : gfx.IntRect) (transportOk : Bool) :
    (self.SetCurrentFrame c aSurface aDirtyRect transportOk).2.1.mKeys.map
        (fun e => (e.mManager, e.mImageKey))
      = self.mKeys.map (fun e => (e.mManager, e.mImageKey)) := by
  have hmerge : (self.mKeys.map (fun e => e.MergeDirtyRect (some aDirtyRect))).map
      (fun e => (e.mManager, e.mImageKey)) = self.mKeys.map (fun e => (e.mManager, e.mImageKey)) := by
    rw [List.map_map]
    apply List.map_congr_left
    intro e _
    have hk := ImageKeyData.MergeDirtyRect_key e (some aDirtyRect)
    simp [hk.1, hk.2]
  unfold SetCurrentFrame
  split
  · rfl
  · simp only
    split
    · exact hmerge
    · split
      · exact hmerge
      · exact hmerge

/-- C7 (animation key stability): after any sequence of frame changes, each
re-targeting the owner to the handle of the surface of the frame, the
(consumer, key) pairs of the owner are the ones it had before, so the key
recorded for every consumer is the key recorded before the sequence: no record
is cleared or replaced. -/
theorem setFrames_keeps_keys (self : SharedSurfacesAnimation) (c : Coordinator)
    (frames : List (Nat × gfx.IntRect × Bool)) :
    (self.setFrames c frames).1.mKeys.map (fun e => (e.mManager, e.mImageKey))
      = self.mKeys.map (fun e => (e.mManager, e.mImageKey)) ∧
    (self.setFrames c frames).1.mKeys.length = self.mKeys.length ∧
    (∀ aManager : Nat,
      (self.setFrames c frames).1.keyFor aManager = self.keyFor aManager) := by
  have hpairs : (self.setFrames c frames).1.mKeys.map (fun e => (e.mManager, e.mImageKey))
      = self.mKeys.map (fun e => (e.mManager, e.mImageKey)) := by
    induction frames generalizing self c with
    | nil => rfl
    | cons f rest ih =>
      obtain ⟨aSurface, aDirtyRect, transportOk⟩ := f
      simp only [setFrames]
      rw [ih, SetCurrentFrame_keeps_keys]
  refine ⟨hpairs, ?_, ?_⟩
  · have hlen := congrArg List.length hpairs
    simpa using hlen
  · intro aManager
    rw [SharedUserData.keyFor_eq, SharedUserData.keyFor_eq, hpairs]

/-- C7, at an owner holding key 11 for consumer 1, across frame changes to the
surfaces 7 and 8: the owner ends on the handle 1 of the second frame and the
key recorded for consumer 1 is still 11. -/
theorem setFrames_keeps_keys_witness :
    (setFrames
        { mKeys := [{ mManager := 1, mDirtyRect := none, mImageKey := 11 }]
          mId := none
          mShared := false }
        { nextHandle := 0, cache := [], reusable := [], discards := [], events := [] }
        [(7, { x := 0, y := 0, width := 4, height := 4 }, true),
         (8, { x := 1, y := 1, width := 2, height := 2 }, true)]).1.Id = some 1 ∧
    (setFrames
        { mKeys := [{ mManager := 1, mDirtyRect := none, mImageKey := 11 }]
          mId := none
          mShared := false }
        { nextHandle := 0, cache := [], reusable := [], discards := [], events := [] }
        [(7, { x := 0, y := 0, width := 4, height := 4 }, true),
         (8, { x := 1, y := 1, width := 2, height := 2 }, true)]).1.keyFor 1 = some 11 :=
  ⟨by decide,
    ((setFrames_keeps_keys
      { mKeys := [{ mManager := 1, mDirtyRect := none, mImageKey := 11 }]
        mId := none
        mShared := false }
      { nextHandle := 0, cache := [], reusable := [], discards := [], events := [] }
      [(7, { x := 0, y := 0, width := 4, height := 4 }, true),
       (8, { x := 1, y := 1, width := 2, height := 2 }, true)]).2.2 1).trans (by decide)⟩

end SharedSurfacesAnimation

namespace TVGonkService

/-- The lookup loop entered behind a prefix `pre` of the registry, with as many
iterations left as there are tuples behind it, finds the first tuple behind
the prefix that matches tuner id and source type. -/
theorem GetSourceListeners_loop_eq (aTunerId aSourceType : String) (aListeners : List Nat)
    (rest pre : Registry) :
    GetSourceListeners.loop aTunerId aSourceType (pre ++ rest) rest.length pre.length aListeners
      = match rest.find? (fun x => decide (aTunerId = x.1 ∧ aSourceType = x.2.1)) with
        | none => aListeners
        | some x => aListeners ++ [x.2.2] := by
  induction rest generalizing pre with
  | nil => simp [GetSourceListeners.loop]
  | cons x rest ih =>
    have hget : (pre ++ x :: rest)[pre.length]? = some x := by
      rw [List.getElem?_append_right (le_refl _)]
      simp
    simp only [List.length_cons, GetSourceListeners.loop, hget, List.find?_cons]
    by_cases hm : aTunerId = x.1 ∧ aSourceType = x.2.1
    · simp [hm]
    · have hstep := ih (pre ++ [x])
      simp only [List.append_assoc, List.singleton_append, List.length_append,
        List.length_singleton] at hstep
      simp [hm, hstep]

/-- The removal loop entered behind a prefix `pre` of the registry, with as
many iterations left as there are tuples behind it, erases the first tuple
behind the prefix that equals the triple. -/
theorem UnregisterSourceListener_loop_eq (aTunerId aSourceType : String) (aListener : Nat)
    (rest pre : Registry) :
    UnregisterSourceListener.loop aTunerId aSourceType aListener (pre ++ rest)
        rest.length pre.length
      = pre ++ rest.erase (aTunerId, aSourceType, aListener) := by
  induction rest generalizing pre with
  | nil => simp [UnregisterSourceListener.loop]
  | cons x rest ih =>
    have hget : (pre ++ x :: rest)[pre.length]? = some x := by
      rw [List.getElem?_append_right (le_refl _)]
      simp
    simp only [List.length_cons, UnregisterSourceListener.loop, hget]
    by_cases hm : aTunerId = x.1 ∧ aSourceType = x.2.1 ∧ aListener = x.2.2
    · have hx : x = (aTunerId, aSourceType, aListener) := by
        obtain ⟨h1, h2, h3⟩ := hm
        exact Prod.ext h1.symm (Prod.ext h2.symm h3.symm)
      rw [if_pos hm, List.eraseIdx_append_of_length_le (le_refl _)]
      simp [hx]
    · have hx : ¬ x = (aTunerId, aSourceType, aListener) := by
        intro h
        apply hm
        rw [h]
        exact ⟨rfl, rfl, rfl⟩
      have hstep := ih (pre ++ [x])
      simp only [List.append_assoc, List.singleton_append, List.length_append,
        List.length_singleton] at hstep
      rw [if_neg hm, hstep, List.erase_cons]
      simp [hx]

/-- C9 (first-match-wins lookup): `GetSourceListeners` leaves the registry
unchanged, discards the previous contents of the output list, leaves it empty
when no registered tuple matches both tuner id and source type, and otherwise
leaves exactly the listener of the earliest-registered matching tuple, whatever
follows that tuple. -/
theorem GetSourceListeners_first_match_wins (reg : Registry)
    (aTunerId aSourceType : String) (aListeners : List Nat) :
    (GetSourceListeners reg aTunerId aSourceType aListeners).1 = reg ∧
    ((∀ x ∈ reg, ¬ (aTunerId = x.1 ∧ aSourceType = x.2.1)) →
      (GetSourceListeners reg aTunerId aSourceType aListeners).2 = []) ∧
    (∀ (pre : Registry) (x : TVSourceListenerTuple) (post : Registry),
      reg = pre ++ x :: post →
      (∀ y ∈ pre, ¬ (aTunerId = y.1 ∧ aSourceType = y.2.1)) →
      (aTunerId = x.1 ∧ aSourceType = x.2.1) →
      (GetSourceListeners reg aTunerId aSourceType aListeners).2 = [x.2.2]) := by
  have hloop := GetSourceListeners_loop_eq aTunerId aSourceType
    (nsTArray.Clear aListeners) reg []
  simp only [List.nil_append, List.length_nil] at hloop
  refine ⟨rfl, ?_, ?_⟩
  · intro hnone
    have hfind : reg.find? (fun x => decide (aTunerId = x.1 ∧ aSourceType = x.2.1)) = none := by
      rw [List.find?_eq_none]
      intro x hx
      simpa using hnone x hx
    simp only [GetSourceListeners]
    rw [hloop, hfind]
    rfl
  · intro pre x post hreg hpre hx
    have hfind : reg.find? (fun x => decide (aTunerId = x.1 ∧ aSourceType = x.2.1)) = some x := by
      have hpre2 : pre.find? (fun x => decide (aTunerId = x.1 ∧ aSourceType = x.2.1)) = none := by
        rw [List.find?_eq_none]
        intro y hy
        simpa using hpre y hy
      rw [hreg, List.find?_append, hpre2, List.find?_cons]
      simp [hx]
    simp only [GetSourceListeners]
    rw [hloop, hfind]
    rfl

/-- C9, at a registry in which two tuples match the query: the listener of
the earlier one is the only element of the output, whose previous contents are
gone. -/
theorem GetSourceListeners_first_match_wins_witness :
    GetSourceListeners [("t1", "hdmi", 1), ("t1", "dvb", 2), ("t1", "dvb", 3)] "t1" "dvb" [9]
      = ([("t1", "hdmi", 1), ("t1", "dvb", 2), ("t1", "dvb", 3)], [2]) :=
  Prod.ext
    (GetSourceListeners_first_match_wins
      [("t1", "hdmi", 1), ("t1", "dvb", 2), ("t1", "dvb", 3)] "t1" "dvb" [9]).1
    ((GetSourceListeners_first_match_wins
      [("t1", "hdmi", 1), ("t1", "dvb", 2), ("t1", "dvb", 3)] "t1" "dvb" [9]).2.2
      [("t1", "hdmi", 1)] ("t1", "dvb", 2) [("t1", "dvb", 3)] rfl (by decide) (by decide))

/-- C10 (first-match-wins removal): `UnregisterSourceListener` returns `NS_OK`;
when no tuple equals the triple in all three components the registry is
unchanged; otherwise exactly the first such tuple is removed and every other
tuple, later duplicates included, stays in its original order. -/
theorem UnregisterSourceListener_first_match_wins (reg : Registry)
    (aTunerId aSourceType : String) (aListener : Nat) :
    (UnregisterSourceListener reg aTunerId aSourceType aListener).1 = NS_OK ∧
    ((aTunerId, aSourceType, aListener) ∉ reg →
      (UnregisterSourceListener reg aTunerId aSourceType aListener).2 = reg) ∧
    ((aTunerId, aSourceType, aListener) ∈ reg →
      ∃ pre post : Registry, (aTunerId, aSourceType, aListener) ∉ pre ∧
        reg = pre ++ (aTunerId, aSourceType, aListener) :: post ∧
        (UnregisterSourceListener reg aTunerId aSourceType aListener).2 = pre ++ post) ∧
    (∀ pre post : Registry, (aTunerId, aSourceType, aListener) ∉ pre →
      reg = pre ++ (aTunerId, aSourceType, aListener) :: post →
      (UnregisterSourceListener reg aTunerId aSourceType aListener).2 = pre ++ post) := by
  have hloop := UnregisterSourceListener_loop_eq aTunerId aSourceType aListener reg []
  simp only [List.nil_append, List.length_nil] at hloop
  have hres : (UnregisterSourceListener reg aTunerId aSourceType aListener).2
      = reg.erase (aTunerId, aSourceType, aListener) := hloop
  refine ⟨rfl, ?_, ?_, ?_⟩
  · intro hnot
    rw [hres, List.erase_of_not_mem hnot]
  · intro hmem
    obtain ⟨pre, post, hpre, hreg, herase⟩ := List.exists_erase_eq hmem
    exact ⟨pre, post, hpre, hreg, by rw [hres, herase]⟩
  · intro pre post hpre hreg
    rw [hres, hreg, List.erase_append_right _ hpre]
    simp

/-- C10, at a registry holding the triple twice: only the first copy goes, the
later duplicate and the other tuple stay in order. -/
theorem UnregisterSourceListener_first_match_wins_witness :
    UnregisterSourceListener
        [("t1", "hdmi", 1), ("t1", "dvb", 2), ("t1", "dvb", 3), ("t1", "dvb", 2)] "t1" "dvb" 2
      = (NS_OK, [("t1", "hdmi", 1), ("t1", "dvb", 3), ("t1", "dvb", 2)]) :=
  Prod.ext
    (UnregisterSourceListener_first_match_wins
      [("t1", "hdmi", 1), ("t1", "dvb", 2), ("t1", "dvb", 3), ("t1", "dvb", 2)] "t1" "dvb" 2).1
    ((UnregisterSourceListener_first_match_wins
      [("t1", "hdmi", 1), ("t1", "dvb", 2), ("t1", "dvb", 3), ("t1", "dvb", 2)] "t1" "dvb" 2).2.2.2
      [("t1", "hdmi", 1)] [("t1", "dvb", 3), ("t1", "dvb", 2)] (by decide) rfl)

end TVGonkService

namespace SharedSurfacesChild

/-- C11 (re-identification resets the entry): after `SetId(id)` on any entry,
`Id()` is `id`, `IsShared()` is false and the list of consumer keys is empty,
however many records it held before. -/
theorem SharedUserData.SetId_resets_entry (d : SharedUserData) (aId : Nat) :
    (d.SetId aId).Id = some aId ∧
    (d.SetId aId).IsShared = false ∧
    (d.SetId aId).mKeys = [] ∧
    (d.SetId aId).mKeys.length = 0 :=
  ⟨rfl, rfl, rfl, rfl⟩

end SharedSurfacesChild

namespace SharedSurfacesAnimation

open SharedSurfacesChild

/-- C12 (initial animation state is unbound): a freshly constructed
`SharedSurfacesAnimation` has an empty list of consumer keys, so no key is
recorded for any consumer, and `IsShared()` is false. -/
theorem new_is_unbound :
    SharedSurfacesAnimation.new.mKeys = [] ∧
    (∀ aManager : Nat, SharedSurfacesAnimation.new.keyFor aManager = none) ∧
    SharedSurfacesAnimation.new.IsShared = false :=
  ⟨rfl, fun _ => rfl, rfl⟩

end SharedSurfacesAnimation

namespace AvahiOperator

/-- On a cancelled operator `Start` returns `NS_OK` and changes nothing,
whatever `Stop` the virtual call would reach. -/
theorem Start_of_canceled (E : nsError)
    (virtualStop : AvahiOperator → nsresult × AvahiOperator) (self : AvahiOperator)
    (pollOk clientOk : Bool) (hc : self.mIsCanceled = true) :
    Start E virtualStop self pollOk clientOk = (NS_OK, self) := by
  unfold Start
  rw [if_pos hc]

/-- None of the three calls clears the cancelled flag. -/
theorem apply_keeps_canceled (E : nsError) (c : Call) (self : AvahiOperator)
    (hc : self.mIsCanceled = true) : (c.apply E self).mIsCanceled = true := by
  cases c with
  | Start pollOk clientOk =>
    simp only [Call.apply]
    rw [Start_of_canceled E Stop self pollOk clientOk hc]
    exact hc
  | Stop =>
    simp only [Call.apply, Stop]
    split <;> exact hc
  | Cancel => rfl

/-- No sequence of calls clears the cancelled flag. -/
theorem applyCalls_keeps_canceled (E : nsError) (self : AvahiOperator) (cs : List Call)
    (hc : self.mIsCanceled = true) : (self.applyCalls E cs).mIsCanceled = true := by
  induction cs generalizing self with
  | nil => exact hc
  | cons c rest ih =>
    simp only [applyCalls, List.foldl_cons]
    exact ih (c.apply E self) (apply_keeps_canceled E c self hc)

/-- A `Start` that returns a success on an operator that is not cancelled
leaves a service in place. -/
theorem Start_service_of_not_canceled (E : nsError) (self : AvahiOperator)
    (pollOk clientOk : Bool) (hc : self.mIsCanceled = false) :
    E.NS_FAILED (Start E Stop self pollOk clientOk).1 = false →
      (Start E Stop self pollOk clientOk).2.GetService ≠ none := by
  unfold Start
  rw [hc]
  simp only [Bool.false_eq_true, if_false]
  split
  · rename_i hstop
    intro hfail
    rw [hstop] at hfail
    exact absurd hfail (by simp)
  · split <;> intro _ <;> simp [GetService]

/-- C16 (cancellation is permanent and makes `Start` a no-op): after `Cancel`
no sequence of `Start`, `Stop` and `Cancel` calls clears the cancelled flag,
and a `Start` after any such sequence returns `NS_OK` and leaves the operator,
its service pointer included, exactly as it was. -/
theorem Cancel_is_permanent (E : nsError) (self : AvahiOperator) (cs : List Call) :
    ((self.Cancel).applyCalls E cs).mIsCanceled = true ∧
    (∀ (virtualStop : AvahiOperator → nsresult × AvahiOperator) (pollOk clientOk : Bool),
      Start E virtualStop ((self.Cancel).applyCalls E cs) pollOk clientOk
        = (NS_OK, (self.Cancel).applyCalls E cs)) ∧
    (∀ pollOk clientOk : Bool,
      ((self.Cancel).applyCalls E (cs ++ [Call.Start pollOk clientOk])).mService
        = ((self.Cancel).applyCalls E cs).mService) := by
  have hc : ((self.Cancel).applyCalls E cs).mIsCanceled = true :=
    applyCalls_keeps_canceled E self.Cancel cs rfl
  refine ⟨hc, ?_, ?_⟩
  · intro virtualStop pollOk clientOk
    exact Start_of_canceled E virtualStop _ pollOk clientOk hc
  · intro pollOk clientOk
    have happ : (self.Cancel).applyCalls E (cs ++ [Call.Start pollOk clientOk])
        = (Call.Start pollOk clientOk).apply E ((self.Cancel).applyCalls E cs) := by
      simp [applyCalls, List.foldl_append]
    rw [happ]
    simp only [Call.apply]
    rw [Start_of_canceled E Stop _ pollOk clientOk hc]

end AvahiOperator

namespace BrowseOperator

/-- When `NS_OK` is a success, `BrowseOperator::Start` calls `BrowseService`
through a null pointer exactly on an operator that is cancelled and has no
service. -/
theorem Start_nullDereference_iff (E : nsError) (hok : E.NS_SUCCEEDED NS_OK = true)
    (self : BrowseOperator) (pollOk clientOk browserOk : Bool) :
    Start E self pollOk clientOk browserOk = Outcome.nullDereference ↔
      (self.mIsCanceled = true ∧ self.mService = none) := by
  have hnf : E.NS_FAILED NS_OK = false := by
    simp [nsError.NS_FAILED, hok]
  cases hc : self.mIsCanceled with
  | true =>
    unfold Start
    rw [AvahiOperator.Start_of_canceled E AvahiOperator.Stop _ pollOk clientOk hc]
    simp only [hnf, Bool.false_eq_true, if_false, AvahiOperator.GetService]
    cases hs : self.mService <;> simp
  | false =>
    have hsvc := AvahiOperator.Start_service_of_not_canceled E self.toAvahiOperator
      pollOk clientOk hc
    unfold Start
    simp only
    split
    · simp
    · rename_i hfail
      have hsome := hsvc (by simpa using hfail)
      split
      · rename_i hnone
        exact absurd hnone hsome
      · simp

/-- C13, at the failing input: on a fresh `BrowseOperator` on which `Cancel`
was called before any `Start`, the inner `AvahiOperator::Start` returns the
success `NS_OK`, `GetService()` is null, and `BrowseOperator::Start` calls
`BrowseService` through that null pointer. -/
theorem Start_after_Cancel_dereferences_null :
    (AvahiOperator.Start nsError.xpcom AvahiOperator.Stop
        (Cancel (BrowseOperator.new "_http._tcp" 1)).toAvahiOperator true true).1 = NS_OK ∧
    nsError.xpcom.NS_SUCCEEDED NS_OK = true ∧
    (AvahiOperator.Start nsError.xpcom AvahiOperator.Stop
        (Cancel (BrowseOperator.new "_http._tcp" 1)).toAvahiOperator true true).2.GetService
      = none ∧
    Start nsError.xpcom (Cancel (BrowseOperator.new "_http._tcp" 1)) true true true
      = Outcome.nullDereference := by
  decide

end BrowseOperator

namespace TVHelpers

/-- C14 (status conversion is total and exact): when the three error codes
tested by `Convert` are failures and differ from each other, `Convert` returns
`NS_OK` for every input and stores `STATUS_OK` exactly for the success codes,
`STATUS_INVALID_ARG` exactly for `NS_ERROR_INVALID_ARG`, `STATUS_NO_SIGNAL`
exactly for `NS_ERROR_NOT_AVAILABLE`, `STATUS_NOT_SUPPORTED` exactly for
`NS_ERROR_NOT_IMPLEMENTED` and `STATUS_FAILURE` exactly for every other
failure code. -/
theorem Convert_total_and_exact (E : nsError) (aIn : nsresult)
    (hf1 : E.NS_SUCCEEDED E.NS_ERROR_INVALID_ARG = false)
    (hf2 : E.NS_SUCCEEDED E.NS_ERROR_NOT_AVAILABLE = false)
    (hf3 : E.NS_SUCCEEDED E.NS_ERROR_NOT_IMPLEMENTED = false)
    (h12 : E.NS_ERROR_INVALID_ARG ≠ E.NS_ERROR_NOT_AVAILABLE)
    (h13 : E.NS_ERROR_INVALID_ARG ≠ E.NS_ERROR_NOT_IMPLEMENTED)
    (h23 : E.NS_ERROR_NOT_AVAILABLE ≠ E.NS_ERROR_NOT_IMPLEMENTED) :
    (Convert E aIn).1 = NS_OK ∧
    ((Convert E aIn).2 = TVStatus.STATUS_OK ↔ E.NS_SUCCEEDED aIn = true) ∧
    ((Convert E aIn).2 = TVStatus.STATUS_INVALID_ARG ↔ aIn = E.NS_ERROR_INVALID_ARG) ∧
    ((Convert E aIn).2 = TVStatus.STATUS_NO_SIGNAL ↔ aIn = E.NS_ERROR_NOT_AVAILABLE) ∧
    ((Convert E aIn).2 = TVStatus.STATUS_NOT_SUPPORTED ↔ aIn = E.NS_ERROR_NOT_IMPLEMENTED) ∧
    ((Convert E aIn).2 = TVStatus.STATUS_FAILURE ↔
      (E.NS_SUCCEEDED aIn = false ∧ aIn ≠ E.NS_ERROR_INVALID_ARG ∧
        aIn ≠ E.NS_ERROR_NOT_AVAILABLE ∧ aIn ≠ E.NS_ERROR_NOT_IMPLEMENTED)) := by
  refine ⟨rfl, ?_⟩
  unfold Convert
  simp only
  cases hs : E.NS_SUCCEEDED aIn with
  | true =>
    have n1 : aIn ≠ E.NS_ERROR_INVALID_ARG := by
      intro h
      rw [h, hf1] at hs
      exact absurd hs (by simp)
    have n2 : aIn ≠ E.NS_ERROR_NOT_AVAILABLE := by
      intro h
      rw [h, hf2] at hs
      exact absurd hs (by simp)
    have n3 : aIn ≠ E.NS_ERROR_NOT_IMPLEMENTED := by
      intro h
      rw [h, hf3] at hs
      exact absurd hs (by simp)
    simp [n1, n2, n3]
  | false =>
    by_cases e1 : aIn = E.NS_ERROR_INVALID_ARG
    · simp [e1, h12, h13]
    · by_cases e2 : aIn = E.NS_ERROR_NOT_AVAILABLE
      · simp [e2, h12.symm, h23]
      · by_cases e3 : aIn = E.NS_ERROR_NOT_IMPLEMENTED
        · simp [e3, h13.symm, h23.symm]
        · simp [e1, e2, e3]

/-- C14, at the error list in which bit 31 marks a failure: the success code
1, which is not `NS_OK`, gives `STATUS_OK`, and `NS_ERROR_NOT_AVAILABLE` gives
`STATUS_NO_SIGNAL`. -/
theorem Convert_total_and_exact_witness :
    Convert nsError.xpcom 1 = (NS_OK, TVStatus.STATUS_OK) ∧
    Convert nsError.xpcom 0x80040111 = (NS_OK, TVStatus.STATUS_NO_SIGNAL) :=
  ⟨Prod.ext
      (Convert_total_and_exact nsError.xpcom 1 (by decide) (by decide) (by decide)
        (by decide) (by decide) (by decide)).1
      ((Convert_total_and_exact nsError.xpcom 1 (by decide) (by decide) (by decide)
        (by decide) (by decide) (by decide)).2.1.mpr (by decide)),
    Prod.ext
      (Convert_total_and_exact nsError.xpcom 0x80040111 (by decide) (by decide) (by decide)
        (by decide) (by decide) (by decide)).1
      ((Convert_total_and_exact nsError.xpcom 0x80040111 (by decide) (by decide) (by decide)
        (by decide) (by decide) (by decide)).2.2.2.1.mpr rfl)⟩

end TVHelpers

namespace TVGonkService

/-- C15 (register/unregister round trip): `RegisterSourceListener` of a triple
followed by `UnregisterSourceListener` of the same triple returns `NS_OK`
twice and leaves the registry with the triple appended and its first
occurrence erased: when the triple was registered before, its first occurrence
is gone and a copy stands at the end; when it was not, the registry is what it
was. -/
theorem Register_then_Unregister (L : Registry) (aTunerId aSourceType : String)
    (aListener : Nat) :
    (RegisterSourceListener L aTunerId aSourceType aListener).1 = NS_OK ∧
    (UnregisterSourceListener (RegisterSourceListener L aTunerId aSourceType aListener).2
      aTunerId aSourceType aListener).1 = NS_OK ∧
    (UnregisterSourceListener (RegisterSourceListener L aTunerId aSourceType aListener).2
      aTunerId aSourceType aListener).2
      = (L ++ [(aTunerId, aSourceType, aListener)]).erase (aTunerId, aSourceType, aListener) ∧
    ((aTunerId, aSourceType, aListener) ∈ L →
      (UnregisterSourceListener (RegisterSourceListener L aTunerId aSourceType aListener).2
        aTunerId aSourceType aListener).2
        = L.erase (aTunerId, aSourceType, aListener) ++ [(aTunerId, aSourceType, aListener)]) ∧
    ((aTunerId, aSourceType, aListener) ∉ L →
      (UnregisterSourceListener (RegisterSourceListener L aTunerId aSourceType aListener).2
        aTunerId aSourceType aListener).2 = L) := by
  have hloop := UnregisterSourceListener_loop_eq aTunerId aSourceType aListener
    (L ++ [(aTunerId, aSourceType, aListener)]) []
  simp only [List.nil_append] at hloop
  have hres : (UnregisterSourceListener
      (RegisterSourceListener L aTunerId aSourceType aListener).2
      aTunerId aSourceType aListener).2
      = (L ++ [(aTunerId, aSourceType, aListener)]).erase
          (aTunerId, aSourceType, aListener) := hloop
  refine ⟨rfl, rfl, hres, ?_, ?_⟩
  · intro hmem
    rw [hres, List.erase_append_left _ hmem]
  · intro hnot
    rw [hres, List.erase_append_right _ hnot]
    simp

/-- C15, at a registry that holds the triple already: its first occurrence
goes and the new copy stays at the end. -/
theorem Register_then_Unregister_witness :
    (UnregisterSourceListener
        (RegisterSourceListener [("t1", "dvb", 2), ("t1", "hdmi", 1)] "t1" "dvb" 2).2
        "t1" "dvb" 2).2
      = [("t1", "hdmi", 1), ("t1", "dvb", 2)] :=
  ((Register_then_Unregister [("t1", "dvb", 2), ("t1", "hdmi", 1)] "t1" "dvb" 2).2.2.2.1
    (by decide)).trans (by decide)

end TVGonkService
